import Mathlib

/-!
Verification of the network-orchestrator reconciler (`app/orchestrator.py`).

The Python source is shallowly embedded: every dict is an association list,
every shelled-out command becomes a constructor of `NetCmd` appended to a
trace, live network state read by queries is an explicit `LiveState`, and the
persisted lease cache (`/tmp/db.json`) is the `Db` structure.  Machine
integers are `Nat` with explicit `% 2 ^ 32` where the source relies on 32-bit
wraparound (SHA-256).  Raised Python exceptions become constructors of
`OrchErr`; the tuple caught by `main` is mirrored by `OrchErr.isCaught`.

Addresses appear in the source as strings; they are modelled post-parse as
`IpIntf` (family, host value, mask length) and rendered back to strings with
an injective rendering wherever the source compares or stores strings, so
string equality in the source coincides with equality of renderings here.
-/

/-! ## Association lists (Python dicts, keyed by strings) -/

def lookupA {α : Type} (m : List (String × α)) (k : String) : Option α :=
  match m with
  | [] => none
  | (k1, v) :: rest => if k1 = k then some v else lookupA rest k

/-- `dict.pop(k, None)`: drop every binding of `k`. -/
def eraseA {α : Type} (m : List (String × α)) (k : String) : List (String × α) :=
  m.filter (fun p => p.1 ≠ k)

/-- `dict[k] = v`: replace the value in place when the key exists, else append. -/
def setA {α : Type} (m : List (String × α)) (k : String) (v : α) :
    List (String × α) :=
  if (lookupA m k).isSome then
    m.map (fun p => if p.1 = k then (k, v) else p)
  else m ++ [(k, v)]

/-- `dict.setdefault(k, v)`. -/
def setdefaultA {α : Type} (m : List (String × α)) (k : String) (v : α) :
    List (String × α) :=
  if (lookupA m k).isSome then m else m ++ [(k, v)]

/-- `dict.values()` (membership is all the source ever uses). -/
def valuesA {α : Type} (m : List (String × α)) : List α :=
  m.map Prod.snd

def keysA {α : Type} (m : List (String × α)) : List String :=
  m.map Prod.fst

/-! ## IP addresses and CIDR ranges (module `ipaddress`, post-parse) -/

/-- A parsed `ip_interface` string: family, host value, mask length. -/
structure IpIntf where
  v4 : Bool
  host : Nat
  pfx : Nat
deriving DecidableEq, Repr

/-- A parsed CIDR range string as fed to `ipaddress.ip_network`. -/
structure Cidr where
  v4 : Bool
  base : Nat
  pfx : Nat
deriving DecidableEq, Repr

def Cidr.width (r : Cidr) : Nat := if r.v4 then 32 else 128

/-- `ip_network` (strict) accepts the string: mask in range, no host bits set. -/
def Cidr.wf (r : Cidr) : Bool :=
  r.pfx ≤ r.width && r.base % 2 ^ (r.width - r.pfx) = 0 && r.base < 2 ^ r.width

/-- Dotted-quad rendering of an IPv4 address value (`str(IPv4Address)`). -/
def ipv4Render (n : Nat) : String :=
  toString (n / 16777216 % 256) ++ "." ++ toString (n / 65536 % 256) ++ "." ++
    toString (n / 256 % 256) ++ "." ++ toString (n % 256)

/-- Rendering of an IPv6 address value.  Python prints the compressed form;
only injectivity and disjointness from IPv4 renderings matter here, so the
uncompressed colon-separated decimal-group form is used. -/
def ipv6Render (n : Nat) : String :=
  toString (n / 2 ^ 112 % 65536) ++ ":" ++ toString (n / 2 ^ 96 % 65536) ++ ":" ++
    toString (n / 2 ^ 80 % 65536) ++ ":" ++ toString (n / 2 ^ 64 % 65536) ++ ":" ++
    toString (n / 2 ^ 48 % 65536) ++ ":" ++ toString (n / 2 ^ 32 % 65536) ++ ":" ++
    toString (n / 2 ^ 16 % 65536) ++ ":" ++ toString (n % 65536)

def ipRender (fam4 : Bool) (n : Nat) : String :=
  if fam4 then ipv4Render n else ipv6Render n

/-- `str(ip_interface)`: address plus `/len`. -/
def IpIntf.render (a : IpIntf) : String :=
  ipRender a.v4 a.host ++ "/" ++ toString a.pfx

/-- `ipaddress.ip_network(r).hosts()`, in enumeration (ascending) order.
For IPv4 the network and broadcast addresses are excluded when the mask
leaves at least 2 spare bits; for IPv6 only the network address is. -/
def Cidr.hostsList (r : Cidr) : List Nat :=
  if r.pfx + 2 ≤ r.width then
    (List.range (2 ^ (r.width - r.pfx) - (if r.v4 then 2 else 1))).map
      (fun i => r.base + 1 + i)
  else if r.pfx + 1 = r.width then [r.base, r.base + 1]
  else [r.base]

/-- `f"{host}/{ip_range.split('/')[-1]}"`: a host of the range rendered with
the mask length of the range string. -/
def Cidr.renderHost (r : Cidr) (h : Nat) : String :=
  ipRender r.v4 h ++ "/" ++ toString r.pfx

/-- `ip_interface(a) in ip_network(r)` — address membership; Python raises
`TypeError` when the families differ. -/
def inNetwork (a : IpIntf) (r : Cidr) : Bool :=
  r.base ≤ a.host && a.host < r.base + 2 ^ (r.width - r.pfx)

/-! ## SHA-256 (`hashlib.sha256`), on `Nat` with explicit 32-bit wraparound -/

def rotr32 (r x : Nat) : Nat :=
  ((x >>> r) ||| (x <<< (32 - r))) % 4294967296

def shaK : List Nat :=
  [1116352408, 1899447441, 3049323471, 3921009573, 961987163,
   1508970993, 2453635748, 2870763221, 3624381080, 310598401,
   607225278, 1426881987, 1925078388, 2162078206, 2614888103,
   3248222580, 3835390401, 4022224774, 264347078, 604807628,
   770255983, 1249150122, 1555081692, 1996064986, 2554220882,
   2821834349, 2952996808, 3210313671, 3336571891, 3584528711,
   113926993, 338241895, 666307205, 773529912, 1294757372,
   1396182291, 1695183700, 1986661051, 2177026350, 2456956037,
   2730485921, 2820302411, 3259730800, 3345764771, 3516065817,
   3600352804, 4094571909, 275423344, 430227734, 506948616,
   659060556, 883997877, 958139571, 1322822218, 1537002063,
   1747873779, 1955562222, 2024104815, 2227730452, 2361852424,
   2428436474, 2756734187, 3204031479, 3329325298]

structure Hash8 where
  ha : Nat
  hb : Nat
  hc : Nat
  hd : Nat
  he : Nat
  hf : Nat
  hg : Nat
  hh : Nat
deriving DecidableEq, Repr

def shaInit : Hash8 :=
  ⟨1779033703, 3144134277, 1013904242, 2773480762,
   1359893119, 2600822924, 528734635, 1541459225⟩

/-- UTF-8 encoding of one character (`str.encode()`), bytes as `Nat`. -/
def utf8Enc (c : Char) : List Nat :=
  let n := c.toNat
  if n < 128 then [n]
  else if n < 2048 then [192 ||| (n >>> 6), 128 ||| (n &&& 63)]
  else if n < 65536 then
    [224 ||| (n >>> 12), 128 ||| ((n >>> 6) &&& 63), 128 ||| (n &&& 63)]
  else
    [240 ||| (n >>> 18), 128 ||| ((n >>> 12) &&& 63),
     128 ||| ((n >>> 6) &&& 63), 128 ||| (n &&& 63)]

def utf8Bytes (s : String) : List Nat :=
  (s.data.map utf8Enc).flatten

def be64 (n : Nat) : List Nat :=
  [n >>> 56 % 256, n >>> 48 % 256, n >>> 40 % 256, n >>> 32 % 256,
   n >>> 24 % 256, n >>> 16 % 256, n >>> 8 % 256, n % 256]

def be32 (n : Nat) : List Nat :=
  [n >>> 24 % 256, n >>> 16 % 256, n >>> 8 % 256, n % 256]

/-- SHA-256 message padding: `0x80`, zeros to 56 mod 64, 64-bit bit length. -/
def shaPad (m : List Nat) : List Nat :=
  let L := m.length
  let k := (119 - L % 64) % 64
  m ++ [128] ++ List.replicate k 0 ++ be64 (8 * L)

def bytesToWords : List Nat → List Nat
  | a :: b :: c :: d :: rest => (a * 16777216 + b * 65536 + c * 256 + d) :: bytesToWords rest
  | _ => []

/-- Extend the 16 message words to 64 schedule words. -/
def shaSchedule (w16 : List Nat) : Array Nat :=
  (List.range 48).foldl
    (fun w _ =>
      let t := w.size
      let x15 := w[t - 15]!
      let x2 := w[t - 2]!
      let s0 := rotr32 7 x15 ^^^ rotr32 18 x15 ^^^ (x15 >>> 3)
      let s1 := rotr32 17 x2 ^^^ rotr32 19 x2 ^^^ (x2 >>> 10)
      w.push ((w[t - 16]! + s0 + w[t - 7]! + s1) % 4294967296))
    w16.toArray

def shaRound (s : Hash8) (kw : Nat × Nat) : Hash8 :=
  let bigS1 := rotr32 6 s.he ^^^ rotr32 11 s.he ^^^ rotr32 25 s.he
  let ch := (s.he &&& s.hf) ^^^ ((s.he ^^^ 4294967295) &&& s.hg)
  let t1 := (s.hh + bigS1 + ch + kw.1 + kw.2) % 4294967296
  let bigS0 := rotr32 2 s.ha ^^^ rotr32 13 s.ha ^^^ rotr32 22 s.ha
  let mj := (s.ha &&& s.hb) ^^^ (s.ha &&& s.hc) ^^^ (s.hb &&& s.hc)
  let t2 := (bigS0 + mj) % 4294967296
  ⟨(t1 + t2) % 4294967296, s.ha, s.hb, s.hc,
   (s.hd + t1) % 4294967296, s.he, s.hf, s.hg⟩

def shaCompress (h0 : Hash8) (block : List Nat) : Hash8 :=
  let w := shaSchedule (bytesToWords block)
  let s := (shaK.zip w.toList).foldl shaRound h0
  ⟨(h0.ha + s.ha) % 4294967296, (h0.hb + s.hb) % 4294967296,
   (h0.hc + s.hc) % 4294967296, (h0.hd + s.hd) % 4294967296,
   (h0.he + s.he) % 4294967296, (h0.hf + s.hf) % 4294967296,
   (h0.hg + s.hg) % 4294967296, (h0.hh + s.hh) % 4294967296⟩

def chunksGo : List Nat → List Nat → List (List Nat)
  | [], acc => if acc.isEmpty then [] else [acc]
  | x :: xs, acc =>
    let acc1 := acc ++ [x]
    if acc1.length = 64 then acc1 :: chunksGo xs [] else chunksGo xs acc1

/-- Split a (padded) byte list into 64-byte blocks. -/
def chunks64 (l : List Nat) : List (List Nat) :=
  chunksGo l []

def sha256Bytes (m : List Nat) : List Nat :=
  let h := (chunks64 (shaPad m)).foldl shaCompress shaInit
  be32 h.ha ++ be32 h.hb ++ be32 h.hc ++ be32 h.hd ++
    be32 h.he ++ be32 h.hf ++ be32 h.hg ++ be32 h.hh

def hexNib (n : Nat) : Char :=
  "0123456789abcdef".toList.getD n 'x'

/-- `.hexdigest()`. -/
def hexDigest (bs : List Nat) : String :=
  String.mk ((bs.map (fun b => [hexNib (b / 16), hexNib (b % 16)])).flatten)

/-- `_hash_string` (orchestrator.py:126-138): first 8 hex characters of the
SHA-256 digest of the string (`hexdigest()[:8]`, as a slice of characters). -/
def hash_string (s : String) : String :=
  String.mk ((hexDigest (sha256Bytes (utf8Bytes s))).data.take 8)

/-! ## Desired-state document (§6): `config.json` records, post-decode -/

structure ParentInfo where
  iface : Option String := none
  native : Option String := none
  trunk : Option String := none
deriving DecidableEq, Repr

structure BridgeInfo where
  parents : List ParentInfo := []
  iprange : Option Cidr := none
  ip6range : Option Cidr := none
  ipaddress : Option IpIntf := none
  ip6address : Option IpIntf := none
deriving DecidableEq, Repr

/-- A container `ipaddress`/`ip6address` field: the `"No-IP"` sentinel or a
literal address.  An absent or empty field is `Option.none` at the use site. -/
inductive AddrReq
  | noIp
  | lit (a : IpIntf)
deriving DecidableEq, Repr

structure ContainerInfo where
  iface : String
  bridge : String
  vlan : Option String := none
  trunk : Option String := none
  ipaddress : Option AddrReq := none
  ip6address : Option AddrReq := none
  gateway : Option String := none
  gateway6 : Option String := none
  macaddress : String := ""
deriving DecidableEq, Repr

structure VlanTranslation where
  onBridge : String
  vmap : String
deriving DecidableEq, Repr

structure Config where
  bridge : List (String × BridgeInfo) := []
  container : List (String × List ContainerInfo) := []
  vlanTranslations : List VlanTranslation := []
deriving DecidableEq, Repr

/-! ## The Lease Cache document (`/tmp/db.json`, `_get_db()`) -/

structure ParentCache where
  trunk : Option String := none
  native : Option String := none
deriving DecidableEq, Repr

structure BrCache where
  parents : List (String × ParentCache) := []
  iprange : Option Cidr := none
  ip6range : Option Cidr := none
  iprangeHosts : List (String × String) := []
  ip6rangeHosts : List (String × String) := []
deriving DecidableEq, Repr

structure Db where
  bridges : List (String × BrCache) := []
  failed : Option Nat := none
deriving DecidableEq, Repr

def getBr (db : Db) (b : String) : BrCache :=
  (lookupA db.bridges b).getD {}

def setBr (db : Db) (b : String) (bc : BrCache) : Db :=
  {db with bridges := setA db.bridges b bc}

/-! ## Live host state and control-plane commands

Every `_run_command`/`run` invocation of the source becomes a `NetCmd`
appended to the trace; queries are answered from `LiveState`, mutations
update it.  The collaborators are assumed to execute every issued command
successfully (a spontaneous `CalledProcessError` is modelled at the pass
level, see `OrchErr.cmdFailed`). -/

/-- `str.lower()`, character by character. -/
def lowerStr (s : String) : String := String.mk (s.data.map Char.toLower)

/-- One line of `ls -l /sys/class/net` output: the raw text (searched for the
USB port substring) and its 9th whitespace-separated field (the device). -/
structure NetDevLine where
  text : String
  ninth : String
deriving DecidableEq, Repr

def lookupP (m : List (String × String × String)) (c i : String) : Option String :=
  match m with
  | [] => none
  | (c1, i1, v) :: rest => if c1 = c ∧ i1 = i then some v else lookupP rest c i

def eraseP (m : List (String × String × String)) (c i : String) :
    List (String × String × String) :=
  m.filter (fun p => ¬(p.1 = c ∧ p.2.1 = i))

def setP (m : List (String × String × String)) (c i v : String) :
    List (String × String × String) :=
  if (lookupP m c i).isSome then
    m.map (fun p => if p.1 = c ∧ p.2.1 = i then (c, i, v) else p)
  else m ++ [(c, i, v)]

structure LiveState where
  links : List String := []
  addrs4 : List (String × List String) := []
  addrs6 : List (String × List String) := []
  portToBr : List (String × String) := []
  devLines : List NetDevLine := []
  containers : List String := []
  ctrIfaces : List (String × String × String) := []
  utilPorts : List (String × String × String) := []
  masters : List (String × List String) := []
deriving DecidableEq, Repr

inductive NetCmd
  | ovsAddBr (br : String)
  | brctlAddBr (br : String)
  | linkSetUp (dev : String)
  | addrFlush (fam4 : Bool) (dev : String)
  | addrAdd (a : IpIntf) (dev : String)
  | queryAddrs (dev : String)
  | portToBr (port : String)
  | delPort (port : String)
  | addPort (br port : String) (trunk native : Option String)
  | setPort (port setting : String)
  | lsNetDevs
  | linkShow (dev : String)
  | linkAddVeth (v0 v1 : String)
  | dockerPs (c : String)
  | ctrLinkShow (c i : String)
  | getPort (c i : String)
  | ctrLinkShowDev (c i : String)
  | ctrSetMac (c i mac : String)
  | ctrLinkDel (c i : String)
  | utilDelPort (br i c : String)
  | utilAddPort (br i c mac : String) (opts : List String)
  | setVlan (br i c vlan : String)
  | setTrunk (br i c tr : String)
  | queryMaster (br : String)
  | linkNomaster (dev : String)
  | brctlAddIf (br dev : String)
  | vlanFiltering (br : String)
  | bridgeVlanDel (dev vid : String)
  | bridgeVlanAdd (dev vid : String) (pvid : Bool)
  | sysctlBrNf
deriving DecidableEq, Repr

/-- Effect of an executed command on the live host state.  `utilAddPort`
carries the `--macaddress` value (also present in `opts`) so the created
interface can record its displayed (lowercased) MAC. -/
def applyCmd (l : LiveState) : NetCmd → LiveState
  | .ovsAddBr br => if br ∈ l.links then l else {l with links := l.links ++ [br]}
  | .brctlAddBr br => if br ∈ l.links then l else {l with links := l.links ++ [br]}
  | .addrFlush true dev => {l with addrs4 := eraseA l.addrs4 dev}
  | .addrFlush false dev => {l with addrs6 := eraseA l.addrs6 dev}
  | .addrAdd a dev =>
    if a.v4 then
      {l with addrs4 := setA l.addrs4 dev ((lookupA l.addrs4 dev).getD [] ++ [a.render])}
    else
      {l with addrs6 := setA l.addrs6 dev ((lookupA l.addrs6 dev).getD [] ++ [a.render])}
  | .delPort p => {l with portToBr := eraseA l.portToBr p}
  | .addPort br p _ _ => {l with portToBr := setA l.portToBr p br}
  | .linkAddVeth v0 v1 => {l with links := l.links ++ [v0, v1]}
  | .ctrSetMac c i m => {l with ctrIfaces := setP l.ctrIfaces c i (lowerStr m)}
  | .ctrLinkDel c i => {l with ctrIfaces := eraseP l.ctrIfaces c i}
  | .utilDelPort _ i c => {l with utilPorts := eraseP l.utilPorts c i}
  | .utilAddPort br i c mac _ =>
    {l with ctrIfaces := setP l.ctrIfaces c i (lowerStr mac),
            utilPorts := setP l.utilPorts c i br}
  | .linkNomaster dev =>
    {l with masters := l.masters.map (fun p => (p.1, p.2.filter (· ≠ dev)))}
  | .brctlAddIf br dev =>
    {l with masters := setA l.masters br ((lookupA l.masters br).getD [] ++ [dev])}
  | _ => l

structure St where
  trace : List NetCmd := []
  live : LiveState := {}
deriving DecidableEq, Repr

def St.emit (st : St) (c : NetCmd) : St :=
  {trace := st.trace ++ [c], live := applyCmd st.live c}

/-- `_get_interface_ip`: all `inet`/`inet6` addresses of a device. -/
def getInterfaceIp (l : LiveState) (dev : String) : List String :=
  (lookupA l.addrs4 dev).getD [] ++ (lookupA l.addrs6 dev).getD []

/-! ## The error taxonomy (§7), as raised Python exceptions -/

inductive OrchErr
  | bridgeIpConflict (fam4 : Bool)
  | notInRange (fam4 : Bool)
  | badNetRange
  | rangeFamilyClash
  | usbAmbiguous
  | usbNoMatch
  | familyMismatch (fam4 : Bool)
  | ipConflict
  | subnetExhausted
  | skipStopIteration
  | missingBridgeKey
  | vethMapUnpack
  | vethMember (veth : String)
  | cmdFailed
deriving DecidableEq, Repr

/-- Whether `main`'s `except (CalledProcessError, ValueError, IndexError)`
catches the exception.  `rangeFamilyClash` is a `TypeError`,
`skipStopIteration` a `StopIteration` and `missingBridgeKey` a `KeyError`:
none of those three is caught. -/
def OrchErr.isCaught : OrchErr → Bool
  | .rangeFamilyClash => false
  | .skipStopIteration => false
  | .missingBridgeKey => false
  | _ => true

/-- Python truthiness of an optional string: `None` and `""` are falsy. -/
def optTruthy (o : Option String) : Option String :=
  match o with
  | some "" => none
  | x => x

/-- `str.split(sep)` for a one-character separator, written structurally
over the character list so every translated function evaluates by
computation alone. -/
def splitChGo (sep : Char) : List Char → List Char → List String
  | [], acc => [String.mk acc.reverse]
  | c :: rest, acc =>
    if c = sep then String.mk acc.reverse :: splitChGo sep rest []
    else splitChGo sep rest (c :: acc)

def splitCh (sep : Char) (s : String) : List String := splitChGo sep s.data []

def listPrefix : List Char → List Char → Bool
  | [], _ => true
  | _ :: _, [] => false
  | a :: as, b :: bs => a = b && listPrefix as bs

def subSearch (sub : List Char) : List Char → Bool
  | [] => listPrefix sub []
  | c :: rest => listPrefix sub (c :: rest) || subSearch sub rest

/-- `sub in s` (substring containment). -/
def containsSub (s sub : String) : Bool :=
  subSearch sub.data s.data

/-! ## Source translation: parents of a bridge (orchestrator.py:155-258)

Every top-level reconciliation step has type `... → St → Db → StepRes`: the
trace/live state and cache at the moment the step returns or raises, plus
the raised exception if any (so a failing pass keeps its partial trace,
exactly as the real process does). -/

def StepRes := St × Db × Option OrchErr

/-- USB alias resolution inside `_add_iface_to_bridge` (lines 220-227):
filter `ls -l /sys/class/net` lines containing the port id, reject more than
one match (`ValueError`), take field 8 of the first (an `IndexError` when no
line matches). -/
def resolveUsb (l : LiveState) (raw : String) : Except OrchErr String :=
  let usbPort := (splitCh ':' raw).getLastD ""
  let usbInfo := l.devLines.filter (fun d => containsSub d.text usbPort)
  if usbInfo.length > 1 then .error .usbAmbiguous
  else
    match usbInfo with
    | [] => .error .usbNoMatch
    | d :: _ => .ok d.ninth

/-- `_add_iface_to_ovs_bridge` (lines 155-177).  Note the source keys both
the `port-to-br` probe and the cache writes by the RAW `iface` value of the
parent record, not the resolved USB name. -/
def add_iface_to_ovs_bridge (brName : String) (pinfo : ParentInfo)
    (st : St) (db : Db) : St × Db :=
  let parent := pinfo.iface.getD "None"
  let bc := getBr db brName
  let bc := {bc with parents := setdefaultA bc.parents parent {}}
  let st := st.emit (.portToBr parent)
  if (lookupA st.live.portToBr parent).getD "" ≠ brName then
    let st := st.emit (.delPort parent)
    let pc := (lookupA bc.parents parent).getD {}
    let trunkOpt := optTruthy pinfo.trunk
    let pc := match trunkOpt with
      | some t => {pc with trunk := some t}
      | none => pc
    let natOpt := optTruthy pinfo.native
    let pc := match natOpt with
      | some v => {pc with native := some v}
      | none => pc
    let bc := {bc with parents := setA bc.parents parent pc}
    let st := st.emit (.addPort brName parent trunkOpt natOpt)
    (st, setBr db brName bc)
  else (st, setBr db brName bc)

/-- The `if trunk := parent_info.get("trunk")` block of
`_add_iface_to_linux_bridge` (lines 193-197). -/
def lxTrunkStep (parent : String) (tr : Option String) (bc : BrCache) (st : St) :
    BrCache × St :=
  match optTruthy tr with
  | some t =>
    let pc := (lookupA bc.parents parent).getD {}
    let bc := {bc with parents := setA bc.parents parent {pc with trunk := some t}}
    let st := st.emit (.bridgeVlanDel parent "1")
    let st := (splitCh ',' t).foldl
      (fun (s : St) vid => s.emit (.bridgeVlanAdd parent vid false)) st
    (bc, st)
  | none => (bc, st)

/-- The `if native_vlan := parent_info.get("native")` block of
`_add_iface_to_linux_bridge` (lines 199-202). -/
def lxNativeStep (parent : String) (nat : Option String) (bc : BrCache) (st : St) :
    BrCache × St :=
  match optTruthy nat with
  | some v =>
    let pc := (lookupA bc.parents parent).getD {}
    let bc := {bc with parents := setA bc.parents parent {pc with native := some v}}
    let st := (st.emit (.bridgeVlanDel parent "1")).emit (.bridgeVlanAdd parent v true)
    (bc, st)
  | none => (bc, st)

/-- `_add_iface_to_linux_bridge` (lines 180-203).  The trunk/native blocks
run unconditionally on every call, re-programming bridge VLANs each pass. -/
def add_iface_to_linux_bridge (brName : String) (pinfo : ParentInfo)
    (st : St) (db : Db) : St × Db :=
  let parent := pinfo.iface.getD "foo"
  let bc := getBr db brName
  let bc := {bc with parents := setdefaultA bc.parents parent {}}
  let st := st.emit (.queryMaster brName)
  let st :=
    if parent ∈ (lookupA st.live.masters brName).getD [] then st
    else
      ((st.emit (.linkNomaster parent)).emit (.brctlAddIf brName parent)).emit
        (.vlanFiltering brName)
  let r1 := lxTrunkStep parent pinfo.trunk bc st
  let r2 := lxNativeStep parent pinfo.native r1.1 r1.2
  (r2.2, setBr db brName r2.1)

/-- One iteration of the trunk/native idempotence loop of
`_add_iface_to_bridge` (lines 238-258), keyed by the RESOLVED parent name:
touch the data plane and the cache only when the desired value differs from
the cached one. -/
def parentKeyStep (useLx : Bool) (brName parent : String) (isTrunk : Bool)
    (value : Option String) (st : St) (db : Db) : St × Db :=
  let bc := getBr db brName
  let pc := (lookupA bc.parents parent).getD {}
  let cached := if isTrunk then pc.trunk else pc.native
  if value = cached then (st, db)
  else
    let pc := if isTrunk then {pc with trunk := value} else {pc with native := value}
    let bc := {bc with parents := setA bc.parents parent pc}
    let db := setBr db brName bc
    match optTruthy value with
    | none => (st, db)
    | some v =>
      if useLx then
        let st := (st.emit (.vlanFiltering brName)).emit (.bridgeVlanDel parent "1")
        let st := (splitCh ',' v).foldl
          (fun (s : St) vid => s.emit (.bridgeVlanAdd parent vid (¬isTrunk))) st
        (st, db)
      else
        (st.emit
          (.setPort parent
            ((if isTrunk then "trunk=" else "vlan_mode=native-untagged tag=") ++ v)),
         db)

/-- Lines 220-227 as a step: the optional `ls -l /sys/class/net` probe and
USB alias resolution (a literal name resolves to itself without a probe). -/
def resolve_iface_step (st : St) (raw : String) : St × Except OrchErr String :=
  if containsSub raw "usb:" then
    let st := st.emit .lsNetDevs
    (st, resolveUsb st.live raw)
  else (st, Except.ok raw)

/-- The remainder of `_add_iface_to_bridge` (lines 229-258) once the parent
name is resolved. -/
def add_iface_to_bridge_resolved (useLx : Bool) (brName parent : String)
    (pinfo : ParentInfo) (st : St) (db : Db) : StepRes :=
  let bc := getBr db brName
  let bc := {bc with parents := setdefaultA bc.parents parent {}}
  let db := setBr db brName bc
  let st := st.emit (.linkSetUp parent)
  let r1 :=
    if useLx then add_iface_to_linux_bridge brName pinfo st db
    else add_iface_to_ovs_bridge brName pinfo st db
  let r2 := parentKeyStep useLx brName parent true pinfo.trunk r1.1 r1.2
  let r3 := parentKeyStep useLx brName parent false pinfo.native r2.1 r2.2
  (r3.1, r3.2, none)

/-- `_add_iface_to_bridge` (lines 205-258). -/
def add_iface_to_bridge (useLx : Bool) (brName : String) (pinfo : ParentInfo)
    (st : St) (db : Db) : StepRes :=
  match pinfo.iface with
  | none => (st, db, none)
  | some raw =>
    match resolve_iface_step st raw with
    | (st1, .error e) => (st1, db, some e)
    | (st1, .ok parent) => add_iface_to_bridge_resolved useLx brName parent pinfo st1 db

/-! ## Source translation: `init_bridge` (orchestrator.py:261-346) -/

/-- The apply half of one family iteration of `init_bridge` (lines 324-342):
reached with `set_ip` true; conflict check only after a genuine cache change,
then the range-membership validation, then commit and `ip addr add`. -/
def bridge_apply_ip (brName : String) (fam4 : Bool) (ipRange : Option Cidr)
    (a : IpIntf) (cacheChanged : Bool) (hosts : List (String × String))
    (st : St) (bc : BrCache) (db : Db) : StepRes :=
  if cacheChanged ∧ a.render ∈ valuesA hosts then
    (st, setBr db brName bc, some (.bridgeIpConflict fam4))
  else
    match ipRange with
    | none => (st, setBr db brName bc, some .badNetRange)
    | some r =>
      if ¬ r.wf then (st, setBr db brName bc, some .badNetRange)
      else if a.v4 ≠ r.v4 then (st, setBr db brName bc, some .rangeFamilyClash)
      else if ¬ inNetwork a r then (st, setBr db brName bc, some (.notInRange fam4))
      else
        let hosts := setA hosts brName a.render
        let bc :=
          if fam4 then {bc with iprangeHosts := hosts} else {bc with ip6rangeHosts := hosts}
        (st.emit (.addrAdd a brName), setBr db brName bc, none)

/-- One iteration of the per-family loop of `init_bridge` (lines 285-342). -/
def bridge_family_step (brName : String) (fam4 : Bool) (ipRange : Option Cidr)
    (ipAddr : Option IpIntf) (st : St) (db : Db) : StepRes :=
  let bc := getBr db brName
  let cachedRange := if fam4 then bc.iprange else bc.ip6range
  let bc :=
    if ipRange ≠ cachedRange then
      if fam4 then {bc with iprange := ipRange, iprangeHosts := []}
      else {bc with ip6range := ipRange, ip6rangeHosts := []}
    else bc
  let hosts := if fam4 then bc.iprangeHosts else bc.ip6rangeHosts
  match ipAddr with
  | none =>
    let hosts := eraseA hosts brName
    let bc :=
      if fam4 then {bc with iprangeHosts := hosts} else {bc with ip6rangeHosts := hosts}
    (st.emit (.addrFlush fam4 brName), setBr db brName bc, none)
  | some a =>
    if some a.render ≠ lookupA hosts brName then
      let hosts := eraseA hosts brName
      let st := st.emit (.addrFlush fam4 brName)
      bridge_apply_ip brName fam4 ipRange a true hosts st bc db
    else
      let st := st.emit (.queryAddrs brName)
      if a.render ∈ getInterfaceIp st.live brName then (st, setBr db brName bc, none)
      else bridge_apply_ip brName fam4 ipRange a false hosts st bc db

def parentsFold (useLx : Bool) (brName : String) :
    List ParentInfo → St → Db → StepRes
  | [], st, db => (st, db, none)
  | p :: rest, st, db =>
    match add_iface_to_bridge useLx brName p st db with
    | (st, db, some e) => (st, db, some e)
    | (st, db, none) => parentsFold useLx brName rest st db

/-- `init_bridge` (lines 261-346). -/
def init_bridge (useLx : Bool) (brName : String) (info : BridgeInfo)
    (st : St) (db : Db) : StepRes :=
  let db := {db with bridges := setdefaultA db.bridges brName {}}
  let st := if useLx then st.emit (.brctlAddBr brName) else st.emit (.ovsAddBr brName)
  let st := st.emit (.linkSetUp brName)
  match bridge_family_step brName true info.iprange info.ipaddress st db with
  | (st, db, some e) => (st, db, some e)
  | (st, db, none) =>
    match bridge_family_step brName false info.ip6range info.ip6address st db with
    | (st, db, some e) => (st, db, some e)
    | (st, db, none) => parentsFold useLx brName info.parents st db

/-! ## Source translation: the Address Allocator
(inside `add_iface_to_container`, orchestrator.py:486-526) -/

inductive ReserveRes
  | ok (m : List (String × String))
  | conflict
deriving DecidableEq, Repr

/-- Explicit reservation (lines 486-495): when the map already binds the
container to this address nothing changes; otherwise the stale binding is
dropped and the address must not be a value of any other key; the binding is
(re)committed in either successful case. -/
def reserve_explicit (cname addr : String) (hosts : List (String × String)) :
    ReserveRes :=
  if some addr ≠ lookupA hosts cname then
    let hosts1 := eraseA hosts cname
    if addr ∈ valuesA hosts1 then .conflict
    else .ok (setA hosts1 cname addr)
  else .ok (setA hosts cname addr)

inductive AllocRes
  | ok (addr : String) (m : List (String × String))
  | exhausted
  | shortRange
  | badRange
deriving DecidableEq, Repr

/-- Auto-allocation (lines 501-526): enumerate `hosts()` of the range in
ascending order, skip the first 5 with `next()` (an uncaught `StopIteration`
when the range has fewer than 5 host addresses — `shortRange`), commit the
first rendered address that is not already a value of the map, raise
`IndexError` (`exhausted`) from the `for`/`else` when none is free.
`badRange` is `ip_network` rejecting the range string (`ValueError`). -/
def auto_allocate (cname : String) (r : Cidr) (hosts : List (String × String)) :
    AllocRes :=
  if ¬ r.wf then .badRange
  else
    let hs := r.hostsList
    if hs.length < 5 then .shortRange
    else
      match (hs.drop 5).find? (fun h => decide (r.renderHost h ∉ valuesA hosts)) with
      | some h => .ok (r.renderHost h) (setA hosts cname (r.renderHost h))
      | none => .exhausted

/-! ## Source translation: `add_iface_to_container` (orchestrator.py:423-607) -/

/-- One iteration of the per-family loop (lines 456-526): gateway option,
then explicit validation + reservation, or auto-allocation when the bridge
has a cached range.  Pure on the cache entry: no command is issued here. -/
def ctr_family_step (cname : String) (fam4 : Bool) (gw : Option String)
    (req : Option AddrReq) (bc : BrCache) :
    Except OrchErr (BrCache × List String) :=
  let opts : List String :=
    match gw with
    | some g => [(if fam4 then "--gateway=" else "--gateway6=") ++ g]
    | none => []
  let hosts := if fam4 then bc.iprangeHosts else bc.ip6rangeHosts
  match req with
  | some .noIp => .ok (bc, opts)
  | some (.lit a) =>
    if a.v4 ≠ fam4 then .error (.familyMismatch fam4)
    else
      match reserve_explicit cname a.render hosts with
      | .conflict => .error .ipConflict
      | .ok hosts1 =>
        let bc :=
          if fam4 then {bc with iprangeHosts := hosts1}
          else {bc with ip6rangeHosts := hosts1}
        .ok (bc, opts ++ [(if fam4 then "--ipaddress=" else "--ip6address=") ++ a.render])
  | none =>
    match (if fam4 then bc.iprange else bc.ip6range) with
    | none => .ok (bc, opts)
    | some r =>
      match auto_allocate cname r hosts with
      | .ok addr hosts1 =>
        let bc :=
          if fam4 then {bc with iprangeHosts := hosts1}
          else {bc with ip6rangeHosts := hosts1}
        .ok (bc, opts ++ [(if fam4 then "--ipaddress=" else "--ip6address=") ++ addr])
      | .exhausted => .error .subnetExhausted
      | .shortRange => .error .skipStopIteration
      | .badRange => .error .badNetRange

/-- Whether `macaddress.lower() in check.stdout` holds for the
`ip link show dev` output of an interface whose displayed MAC is `disp`:
the empty string is a substring of anything, and a full MAC literal occurs
iff it is the displayed (lowercase) address. -/
def macVisible (mac disp : String) : Bool :=
  mac = "" || disp = lowerStr mac

/-- The creation tail (lines 577-607): the assembled `add-port` call, then
the optional `set-vlan` / `set-trunk` follow-ups. -/
def ctr_create (cname : String) (info : ContainerInfo) (opts : List String)
    (st : St) (db : Db) : StepRes :=
  let st := st.emit (.utilAddPort info.bridge info.iface cname info.macaddress opts)
  let st :=
    match optTruthy info.vlan with
    | some vl => st.emit (.setVlan info.bridge info.iface cname vl)
    | none => st
  let st :=
    match optTruthy info.trunk with
    | some tr => st.emit (.setTrunk info.bridge info.iface cname tr)
    | none => st
  (st, db, none)

/-- `add_iface_to_container` (lines 423-607). -/
def add_iface_to_container (cname : String) (info : ContainerInfo)
    (st : St) (db : Db) : StepRes :=
  let st := st.emit (.dockerPs cname)
  if cname ∉ st.live.containers then (st, db, none)
  else
    match lookupA db.bridges info.bridge with
    | none => (st, db, some .missingBridgeKey)
    | some _ =>
      let bc := getBr db info.bridge
      match ctr_family_step cname true (optTruthy info.gateway) info.ipaddress bc with
      | .error e => (st, db, some e)
      | .ok (bc, opts4) =>
        match ctr_family_step cname false (optTruthy info.gateway6) info.ip6address bc with
        | .error e => (st, setBr db info.bridge bc, some e)
        | .ok (bc, opts6) =>
          let db := setBr db info.bridge bc
          let macOpts :=
            if info.macaddress ≠ "" then ["--macaddress=" ++ info.macaddress] else []
          let opts := opts4 ++ opts6 ++ macOpts
          let st := st.emit (.ctrLinkShow cname info.iface)
          if (lookupP st.live.ctrIfaces cname info.iface).isSome then
            let st := st.emit (.getPort cname info.iface)
            if (lookupP st.live.utilPorts cname info.iface).isSome then
              let st := st.emit (.ctrLinkShowDev cname info.iface)
              let disp := (lookupP st.live.ctrIfaces cname info.iface).getD ""
              if macVisible info.macaddress disp then (st, db, none)
              else (st.emit (.ctrSetMac cname info.iface info.macaddress), db, none)
            else
              let st := (st.emit (.ctrLinkDel cname info.iface)).emit
                (.utilDelPort info.bridge info.iface cname)
              ctr_create cname info opts st db
          else
            let st := st.emit (.utilDelPort info.bridge info.iface cname)
            ctr_create cname info opts st db

/-! ## Source translation: `create_veth_pair` (orchestrator.py:349-420) -/

/-- One endpoint of the loop over `[(veth0, source_vlan), (veth1, dest_vlan)]`
(lines 398-420): attach and tag when the control plane has no membership
record; fail when the record names a different bridge. -/
def veth_endpoint_step (onBridge vname vlan : String) (st : St) :
    St × Option OrchErr :=
  let st := st.emit (.portToBr vname)
  match lookupA st.live.portToBr vname with
  | none =>
    (((st.emit (.addPort onBridge vname none none)).emit
        (.setPort vname ("tag=" ++ vlan))), none)
  | some b =>
    if b ≠ onBridge then (st, some (.vethMember vname)) else (st, none)

/-- Lines 374-378: the stable pair of endpoint names derived from the hash
of the literal mapping string. -/
def veth_names (vmap : String) : String × String :=
  ("v0_" ++ hash_string vmap, "v1_" ++ hash_string vmap)

/-- `create_veth_pair` (lines 349-420). -/
def create_veth_pair (onBridge vmap : String) (st : St) : St × Option OrchErr :=
  let parts := splitCh ':' vmap
  if parts.length = 2 then
    let sourceVlan := parts.getD 0 ""
    let destVlan := parts.getD 1 ""
    let veth0 := (veth_names vmap).1
    let veth1 := (veth_names vmap).2
    let st := st.emit (.linkShow veth0)
    let st :=
      if veth0 ∈ st.live.links then st
      else
        ((st.emit (.linkAddVeth veth0 veth1)).emit (.linkSetUp veth0)).emit
          (.linkSetUp veth1)
    match veth_endpoint_step onBridge veth0 sourceVlan st with
    | (st, some e) => (st, some e)
    | (st, none) => veth_endpoint_step onBridge veth1 destVlan st
  else (st, some .vethMapUnpack)

/-! ## Source translation: the Pass Controller (`main`, orchestrator.py:625-679) -/

def bridgesFold (useLx : Bool) :
    List (String × BridgeInfo) → St → Db → StepRes
  | [], st, db => (st, db, none)
  | (b, info) :: rest, st, db =>
    match init_bridge useLx b info st db with
    | (st, db, some e) => (st, db, some e)
    | (st, db, none) => bridgesFold useLx rest st db

def ctrInfosFold (cname : String) :
    List ContainerInfo → St → Db → StepRes
  | [], st, db => (st, db, none)
  | info :: rest, st, db =>
    match add_iface_to_container cname info st db with
    | (st, db, some e) => (st, db, some e)
    | (st, db, none) => ctrInfosFold cname rest st db

def containersFold :
    List (String × List ContainerInfo) → St → Db → StepRes
  | [], st, db => (st, db, none)
  | (cname, infos) :: rest, st, db =>
    match ctrInfosFold cname infos st db with
    | (st, db, some e) => (st, db, some e)
    | (st, db, none) => containersFold rest st db

def vethsFold : List VlanTranslation → St → Option OrchErr
  | [], _ => none
  | t :: rest, st =>
    match create_veth_pair t.onBridge t.vmap st with
    | (_, some e) => some e
    | (st, none) => vethsFold rest st

def vethsFoldSt : List VlanTranslation → St → St
  | [], st => st
  | t :: rest, st =>
    match create_veth_pair t.onBridge t.vmap st with
    | (st, some _) => st
    | (st, none) => vethsFoldSt rest st

/-- The body of the `try` block (lines 644-663): bridges, then containers,
then — outside of basic-bridge mode — the VLAN translations. -/
def pass_body (useLx : Bool) (cfg : Config) (st : St) (db : Db) : StepRes :=
  match bridgesFold useLx cfg.bridge st db with
  | (st, db, some e) => (st, db, some e)
  | (st, db, none) =>
    match containersFold cfg.container st db with
    | (st, db, some e) => (st, db, some e)
    | (st, db, none) =>
      if useLx then (st, db, none)
      else (vethsFoldSt cfg.vlanTranslations st, db, vethsFold cfg.vlanTranslations st)

def MAX_FAIL_COUNT : Nat := 2

/-- Outcome of one invocation of `main` past its environment preamble. -/
structure MainOut where
  ranBody : Bool
  saved : Bool
  stored : Db
  trace : List NetCmd
  exitNonzero : Bool
  err : Option OrchErr
deriving DecidableEq, Repr

/-- The pass-controller skeleton of `main` (lines 639-679), over an abstract
body: read `failed` with `setdefault`, exit before the `try` when it exceeds
`_MAX_FAIL_COUNT` (no body, no `finally`, NO save), otherwise run the body;
a caught exception increments the stored counter, the `finally` dumps the
cache whether or not the body raised (caught or not). -/
def mainPass (db0 : Db) (body : Db → Db × List NetCmd × Option OrchErr) : MainOut :=
  let fail0 := db0.failed.getD 0
  let dbm := {db0 with failed := some fail0}
  if fail0 > MAX_FAIL_COUNT then
    {ranBody := false, saved := false, stored := db0, trace := [], exitNonzero := true,
     err := none}
  else
    match body dbm with
    | (db1, tr, none) =>
      {ranBody := true, saved := true, stored := db1, trace := tr, exitNonzero := false,
       err := none}
    | (db1, tr, some e) =>
      if e.isCaught then
        {ranBody := true, saved := true, stored := {db1 with failed := some (fail0 + 1)},
         trace := tr, exitNonzero := false, err := some e}
      else
        {ranBody := true, saved := true, stored := db1, trace := tr, exitNonzero := true,
         err := some e}

/-- `main` with the real reconciliation body.  In basic-bridge mode the
`sysctl` call of the preamble (line 635) runs BEFORE the breaker check and
is prepended to the trace. -/
def mainRun (useLx : Bool) (cfg : Config) (live0 : LiveState) (db0 : Db) : MainOut :=
  let out := mainPass db0 (fun db =>
    let r := pass_body useLx cfg {trace := [], live := live0} db
    (r.2.1, r.1.trace, r.2.2))
  if useLx then {out with trace := .sysctlBrNf :: out.trace} else out

/-! ## Classifying commands for the idempotence claims -/

/-- A pure read of live state: the idempotent existence checks and lookups. -/
def NetCmd.isQuery : NetCmd → Bool
  | .queryAddrs _ => true
  | .portToBr _ => true
  | .lsNetDevs => true
  | .linkShow _ => true
  | .dockerPs _ => true
  | .ctrLinkShow _ _ => true
  | .getPort _ _ => true
  | .ctrLinkShowDev _ _ => true
  | .queryMaster _ => true
  | _ => false

/-- A control-plane mutation call.  The `--may-exist add-br` /
`brctl addbr`-with-`check=False` calls are create-if-absent probes and are
counted with the idempotent existence checks, not as mutations. -/
def NetCmd.mutating (c : NetCmd) : Bool :=
  !(c.isQuery || (match c with | .ovsAddBr _ => true | .brctlAddBr _ => true | _ => false))

/-- The mutation calls a settled second pass is allowed to re-issue: the
unconditional `ip link set ... up` and the unconditional address flush for a
family with no desired address. -/
def pass2Allowed (c : NetCmd) : Bool :=
  !c.mutating || (match c with | .linkSetUp _ => true | .addrFlush _ _ => true | _ => false)

/-- The reconciliation body handed to the pass controller, named so the
theorems can speak about it. -/
def mainBody (useLx : Bool) (cfg : Config) (live0 : LiveState) :
    Db → Db × List NetCmd × Option OrchErr :=
  fun db =>
    let r := pass_body useLx cfg {trace := [], live := live0} db
    (r.2.1, r.1.trace, r.2.2)

/-! ## Laws of the dict embedding -/

theorem lookupA_append {α : Type} (l1 l2 : List (String × α)) (q : String) :
    lookupA (l1 ++ l2) q =
      match lookupA l1 q with
      | some v => some v
      | none => lookupA l2 q := by
  induction l1 with
  | nil => rfl
  | cons p rest ih =>
    rcases p with ⟨k1, v1⟩
    by_cases h : k1 = q <;> simp [lookupA, h, ih]

theorem eraseA_cons {α : Type} (k1 : String) (v1 : α) (rest : List (String × α))
    (k : String) :
    eraseA ((k1, v1) :: rest) k =
      if k1 = k then eraseA rest k else (k1, v1) :: eraseA rest k := by
  by_cases h : k1 = k <;> simp [eraseA, List.filter_cons, h]

theorem lookupA_mapSet_ne {α : Type} (m : List (String × α)) (k q : String) (v : α)
    (h : q ≠ k) :
    lookupA (m.map (fun p => if p.1 = k then (k, v) else p)) q = lookupA m q := by
  induction m with
  | nil => rfl
  | cons p rest ih =>
    rcases p with ⟨k1, v1⟩
    simp only [List.map_cons]
    by_cases h1 : k1 = k
    · have hkq : ¬ k = q := fun hq => h hq.symm
      have hk1q : ¬ k1 = q := fun hq => hkq (h1 ▸ hq)
      rw [if_pos h1]
      simp only [lookupA]
      rw [if_neg hkq, if_neg hk1q]
      exact ih
    · rw [if_neg h1]
      simp only [lookupA]
      by_cases h2 : k1 = q
      · rw [if_pos h2, if_pos h2]
      · rw [if_neg h2, if_neg h2]; exact ih

theorem lookupA_mapSet_self {α : Type} (m : List (String × α)) (k : String) (v : α)
    (h : (lookupA m k).isSome) :
    lookupA (m.map (fun p => if p.1 = k then (k, v) else p)) k = some v := by
  induction m with
  | nil => simp [lookupA] at h
  | cons p rest ih =>
    rcases p with ⟨k1, v1⟩
    simp only [List.map_cons]
    by_cases h1 : k1 = k
    · rw [if_pos h1]
      simp [lookupA]
    · rw [if_neg h1]
      simp only [lookupA]
      rw [if_neg h1]
      apply ih
      simpa [lookupA, h1] using h

theorem lookupA_setA_self {α : Type} (m : List (String × α)) (k : String) (v : α) :
    lookupA (setA m k v) k = some v := by
  unfold setA
  by_cases hs : (lookupA m k).isSome
  · simp only [hs, if_true]
    exact lookupA_mapSet_self m k v hs
  · simp only [hs, if_false, Bool.false_eq_true, lookupA_append]
    rcases he : lookupA m k with _ | w
    · simp [lookupA]
    · simp [he, Option.isSome] at hs

theorem lookupA_setA_ne {α : Type} (m : List (String × α)) (k q : String) (v : α)
    (h : q ≠ k) :
    lookupA (setA m k v) q = lookupA m q := by
  unfold setA
  by_cases hs : (lookupA m k).isSome
  · simp only [hs, if_true]
    exact lookupA_mapSet_ne m k q v h
  · simp only [hs, if_false, Bool.false_eq_true, lookupA_append]
    rcases he : lookupA m q with _ | w
    · simp [lookupA, Ne.symm h]
    · simp

theorem lookupA_setA {α : Type} (m : List (String × α)) (k q : String) (v : α) :
    lookupA (setA m k v) q = if q = k then some v else lookupA m q := by
  by_cases h : q = k
  · subst h; simp [lookupA_setA_self]
  · simp [h, lookupA_setA_ne m k q v h]

theorem lookupA_eraseA_self {α : Type} (m : List (String × α)) (k : String) :
    lookupA (eraseA m k) k = none := by
  induction m with
  | nil => rfl
  | cons p rest ih =>
    rcases p with ⟨k1, v1⟩
    rw [eraseA_cons]
    by_cases h : k1 = k
    · rw [if_pos h]; exact ih
    · rw [if_neg h]
      simp only [lookupA]
      rw [if_neg h]
      exact ih

theorem lookupA_eraseA_ne {α : Type} (m : List (String × α)) (k q : String)
    (h : q ≠ k) :
    lookupA (eraseA m k) q = lookupA m q := by
  induction m with
  | nil => rfl
  | cons p rest ih =>
    rcases p with ⟨k1, v1⟩
    rw [eraseA_cons]
    by_cases h1 : k1 = k
    · rw [if_pos h1, ih]
      have hk1q : ¬ k1 = q := fun hq => h (by rw [← hq, h1])
      simp only [lookupA]
      rw [if_neg hk1q]
    · rw [if_neg h1]
      simp only [lookupA]
      by_cases h2 : k1 = q
      · rw [if_pos h2, if_pos h2]
      · rw [if_neg h2, if_neg h2]; exact ih

theorem lookupA_setdefaultA_ne {α : Type} (m : List (String × α)) (k q : String)
    (v : α) (h : q ≠ k) :
    lookupA (setdefaultA m k v) q = lookupA m q := by
  unfold setdefaultA
  by_cases hs : (lookupA m k).isSome
  · simp [hs]
  · simp only [hs, if_false, Bool.false_eq_true, lookupA_append]
    rcases he : lookupA m q with _ | w
    · simp [lookupA, Ne.symm h]
    · simp

theorem lookupA_setdefaultA_self {α : Type} (m : List (String × α)) (k : String)
    (v : α) :
    lookupA (setdefaultA m k v) k = some ((lookupA m k).getD v) := by
  unfold setdefaultA
  rcases he : lookupA m k with _ | w
  · simp [he, lookupA_append, lookupA]
  · simp [he]

theorem mem_valuesA_of_lookupA {α : Type} (m : List (String × α)) (k : String)
    (v : α) (h : lookupA m k = some v) : v ∈ valuesA m := by
  induction m with
  | nil => simp [lookupA] at h
  | cons p rest ih =>
    rcases p with ⟨k1, v1⟩
    by_cases h1 : k1 = k
    · simp [lookupA, h1] at h
      simp [valuesA, h]
    · simp [lookupA, h1] at h
      simp only [valuesA, List.map_cons, List.mem_cons]
      exact Or.inr (ih h)

theorem getBr_setBr_self (db : Db) (b : String) (bc : BrCache) :
    getBr (setBr db b bc) b = bc := by
  simp [getBr, setBr, lookupA_setA_self]

theorem getBr_setBr_ne (db : Db) (b q : String) (bc : BrCache) (h : q ≠ b) :
    getBr (setBr db b bc) q = getBr db q := by
  simp [getBr, setBr, lookupA_setA_ne _ _ _ _ h]

theorem getBr_setdefault_self (db : Db) (b : String) :
    getBr {db with bridges := setdefaultA db.bridges b {}} b = getBr db b := by
  simp only [getBr, lookupA_setdefaultA_self]
  rcases lookupA db.bridges b with _ | bc <;> simp

theorem getBr_setdefault_ne (db : Db) (b q : String) (h : q ≠ b) :
    getBr {db with bridges := setdefaultA db.bridges b {}} q = getBr db q := by
  simp [getBr, lookupA_setdefaultA_ne _ _ _ _ h]

theorem lookupA_eq_none_forall {α : Type} (m : List (String × α)) (k : String)
    (h : lookupA m k = none) : ∀ p ∈ m, p.1 ≠ k := by
  induction m with
  | nil => simp
  | cons p rest ih =>
    rcases p with ⟨k1, v1⟩
    by_cases h1 : k1 = k
    · simp [lookupA, h1] at h
    · simp [lookupA, h1] at h
      intro q hq
      rcases List.mem_cons.mp hq with rfl | hq2
      · simpa using h1
      · exact ih h q hq2

theorem setA_setA {α : Type} (m : List (String × α)) (k : String) (v w : α) :
    setA (setA m k v) k w = setA m k w := by
  by_cases hs : (lookupA m k).isSome
  · have h1 : setA m k v = m.map (fun p => if p.1 = k then (k, v) else p) := by
      unfold setA; rw [if_pos hs]
    have h2 : (lookupA (setA m k v) k).isSome := by
      rw [lookupA_setA_self]; rfl
    rw [h1] at h2 ⊢
    unfold setA
    rw [if_pos h2, if_pos hs, List.map_map]
    congr 1
    funext p
    by_cases hp : p.1 = k
    · simp [hp]
    · simp [hp]
  · have hnone : lookupA m k = none := by
      rcases he : lookupA m k with _ | w1
      · rfl
      · rw [he] at hs; simp at hs
    have h1 : setA m k v = m ++ [(k, v)] := by
      unfold setA; rw [if_neg hs]
    have h2 : (lookupA (setA m k v) k).isSome := by
      rw [lookupA_setA_self]; rfl
    rw [h1] at h2 ⊢
    unfold setA
    rw [if_pos h2, if_neg hs, List.map_append]
    have hm : m.map (fun p => if p.1 = k then (k, w) else p) = m := by
      conv_rhs => rw [← List.map_id m]
      apply List.map_congr_left
      intro p hp
      rw [if_neg (lookupA_eq_none_forall m k hnone p hp)]
      rfl
    rw [hm]
    simp

theorem setBr_setBr (db : Db) (b : String) (x y : BrCache) :
    setBr (setBr db b x) b y = setBr db b y := by
  simp [setBr, setA_setA]

theorem setBr_failed (db : Db) (b : String) (bc : BrCache) :
    (setBr db b bc).failed = db.failed := rfl

/-! ## Footprints of the reconciler steps on the Lease Cache -/

/-- The cache effect of a step that touches at most the entry of bridge `b`. -/
def DbOnlyBridge (db res : Db) (b : String) : Prop :=
  res = db ∨ ∃ bc, res = setBr db b bc

/-- The cache effect of a step that rewrites at most the `parents` field of
the entry of bridge `b`. -/
def DbParentsOnly (db res : Db) (b : String) : Prop :=
  res = db ∨ ∃ ps, res = setBr db b {getBr db b with parents := ps}

theorem dbParentsOnly_toOnly {db res : Db} {b : String} (h : DbParentsOnly db res b) :
    DbOnlyBridge db res b := by
  rcases h with rfl | ⟨ps, rfl⟩
  · exact Or.inl rfl
  · exact Or.inr ⟨_, rfl⟩

theorem dbOnlyBridge_compose {db d1 d2 : Db} {b : String}
    (h1 : DbOnlyBridge db d1 b) (h2 : DbOnlyBridge d1 d2 b) :
    DbOnlyBridge db d2 b := by
  rcases h1 with rfl | ⟨bc1, rfl⟩
  · exact h2
  · rcases h2 with rfl | ⟨bc2, rfl⟩
    · exact Or.inr ⟨bc1, rfl⟩
    · exact Or.inr ⟨bc2, setBr_setBr db b bc1 bc2⟩

theorem dbParentsOnly_compose {db d1 d2 : Db} {b : String}
    (h1 : DbParentsOnly db d1 b) (h2 : DbParentsOnly d1 d2 b) :
    DbParentsOnly db d2 b := by
  rcases h1 with rfl | ⟨ps1, rfl⟩
  · exact h2
  · rcases h2 with rfl | ⟨ps2, h2⟩
    · exact Or.inr ⟨ps1, rfl⟩
    · refine Or.inr ⟨ps2, ?_⟩
      rw [h2, getBr_setBr_self, setBr_setBr]

theorem dbOnlyBridge_failedEq {db res : Db} {b : String} (h : DbOnlyBridge db res b) :
    res.failed = db.failed := by
  rcases h with rfl | ⟨bc, rfl⟩
  · rfl
  · rfl

theorem dbOnlyBridge_getBr_ne {db res : Db} {b : String} (h : DbOnlyBridge db res b)
    (q : String) (hq : q ≠ b) : getBr res q = getBr db q := by
  rcases h with rfl | ⟨bc, rfl⟩
  · rfl
  · exact getBr_setBr_ne db b q bc hq

theorem dbParentsOnly_fields {db res : Db} {b : String} (h : DbParentsOnly db res b) :
    (getBr res b).iprange = (getBr db b).iprange ∧
    (getBr res b).ip6range = (getBr db b).ip6range ∧
    (getBr res b).iprangeHosts = (getBr db b).iprangeHosts ∧
    (getBr res b).ip6rangeHosts = (getBr db b).ip6rangeHosts := by
  rcases h with rfl | ⟨ps, rfl⟩
  · exact ⟨rfl, rfl, rfl, rfl⟩
  · rw [getBr_setBr_self]
    exact ⟨rfl, rfl, rfl, rfl⟩

theorem setdefault_parentsOnly (db : Db) (b : String) :
    DbParentsOnly db {db with bridges := setdefaultA db.bridges b {}} b := by
  by_cases hs : (lookupA db.bridges b).isSome
  · left
    simp [setdefaultA, hs]
  · right
    refine ⟨[], ?_⟩
    have hg : getBr db b = {} := by
      unfold getBr
      rcases he : lookupA db.bridges b with _ | w
      · rfl
      · rw [he] at hs; simp at hs
    rw [hg]
    simp [setBr, setA, setdefaultA, hs]

theorem add_iface_to_ovs_bridge_parentsOnly (b : String) (p : ParentInfo) (st : St)
    (db : Db) : DbParentsOnly db (add_iface_to_ovs_bridge b p st db).2 b := by
  dsimp only [add_iface_to_ovs_bridge]
  split
  · exact Or.inr ⟨_, rfl⟩
  · exact Or.inr ⟨_, rfl⟩

theorem lxTrunkStep_parents (parent : String) (tr : Option String) (bc : BrCache)
    (st : St) :
    ∃ ps, (lxTrunkStep parent tr bc st).1 = {bc with parents := ps} := by
  dsimp only [lxTrunkStep]
  rcases optTruthy tr with _ | t
  · exact ⟨bc.parents, rfl⟩
  · exact ⟨_, rfl⟩

theorem lxNativeStep_parents (parent : String) (nat : Option String) (bc : BrCache)
    (st : St) :
    ∃ ps, (lxNativeStep parent nat bc st).1 = {bc with parents := ps} := by
  dsimp only [lxNativeStep]
  rcases optTruthy nat with _ | v
  · exact ⟨bc.parents, rfl⟩
  · exact ⟨_, rfl⟩

theorem add_iface_to_linux_bridge_parentsOnly (b : String) (p : ParentInfo) (st : St)
    (db : Db) : DbParentsOnly db (add_iface_to_linux_bridge b p st db).2 b := by
  dsimp only [add_iface_to_linux_bridge]
  rcases lxTrunkStep_parents (p.iface.getD "foo") p.trunk
      {getBr db b with parents := setdefaultA (getBr db b).parents (p.iface.getD "foo") {}}
      (if (p.iface.getD "foo") ∈ (lookupA (st.emit (.queryMaster b)).live.masters b).getD []
        then st.emit (.queryMaster b)
        else (((st.emit (.queryMaster b)).emit (.linkNomaster (p.iface.getD "foo"))).emit
          (.brctlAddIf b (p.iface.getD "foo"))).emit (.vlanFiltering b)) with ⟨ps1, h1⟩
  rw [h1]
  rcases lxNativeStep_parents (p.iface.getD "foo") p.native _ _ with ⟨ps2, h2⟩
  rw [h2]
  exact Or.inr ⟨ps2, rfl⟩

theorem parentKeyStep_parentsOnly (useLx : Bool) (b parent : String) (isTrunk : Bool)
    (value : Option String) (st : St) (db : Db) :
    DbParentsOnly db (parentKeyStep useLx b parent isTrunk value st db).2 b := by
  dsimp only [parentKeyStep]
  repeat' split
  all_goals first
    | exact Or.inl rfl
    | exact Or.inr ⟨_, rfl⟩

theorem add_iface_to_bridge_resolved_parentsOnly (useLx : Bool) (b parent : String)
    (p : ParentInfo) (st : St) (db : Db) :
    DbParentsOnly db (add_iface_to_bridge_resolved useLx b parent p st db).2.1 b := by
  dsimp only [add_iface_to_bridge_resolved]
  have h0 : DbParentsOnly db
      (setBr db b {getBr db b with parents := setdefaultA (getBr db b).parents parent {}}) b :=
    Or.inr ⟨_, rfl⟩
  refine dbParentsOnly_compose h0 (dbParentsOnly_compose ?_ (dbParentsOnly_compose
      (parentKeyStep_parentsOnly useLx b parent true p.trunk _ _)
      (parentKeyStep_parentsOnly useLx b parent false p.native _ _)))
  split
  · exact add_iface_to_linux_bridge_parentsOnly b p _ _
  · exact add_iface_to_ovs_bridge_parentsOnly b p _ _

theorem add_iface_to_bridge_parentsOnly (useLx : Bool) (b : String)
    (p : ParentInfo) (st : St) (db : Db) :
    DbParentsOnly db (add_iface_to_bridge useLx b p st db).2.1 b := by
  dsimp only [add_iface_to_bridge]
  rcases p.iface with _ | raw
  · exact Or.inl rfl
  · dsimp only
    rcases resolve_iface_step st raw with ⟨st1, _ | parent⟩
    · exact Or.inl rfl
    · exact add_iface_to_bridge_resolved_parentsOnly useLx b parent p st1 db

theorem parentsFold_parentsOnly (useLx : Bool) (b : String) (ps : List ParentInfo)
    (st : St) (db : Db) :
    DbParentsOnly db (parentsFold useLx b ps st db).2.1 b := by
  induction ps generalizing st db with
  | nil => exact Or.inl rfl
  | cons p rest ih =>
    dsimp only [parentsFold]
    rcases hr : add_iface_to_bridge useLx b p st db with ⟨st1, db1, _ | e⟩
    · have h1 := add_iface_to_bridge_parentsOnly useLx b p st db
      rw [hr] at h1
      exact dbParentsOnly_compose h1 (ih st1 db1)
    · have h1 := add_iface_to_bridge_parentsOnly useLx b p st db
      rw [hr] at h1
      exact h1

theorem bridge_apply_ip_db (b : String) (fam4 : Bool) (ipRange : Option Cidr)
    (a : IpIntf) (cc : Bool) (hosts : List (String × String)) (st : St)
    (bc : BrCache) (db : Db) :
    ∃ bc1, (bridge_apply_ip b fam4 ipRange a cc hosts st bc db).2.1 = setBr db b bc1 := by
  dsimp only [bridge_apply_ip]
  repeat' split
  all_goals exact ⟨_, rfl⟩

theorem bridge_family_step_db (b : String) (fam4 : Bool) (ipRange : Option Cidr)
    (ipAddr : Option IpIntf) (st : St) (db : Db) :
    ∃ bc1, (bridge_family_step b fam4 ipRange ipAddr st db).2.1 = setBr db b bc1 := by
  dsimp only [bridge_family_step]
  repeat' split
  all_goals first
    | exact ⟨_, rfl⟩
    | apply bridge_apply_ip_db

theorem init_bridge_dbOnly (useLx : Bool) (b : String) (info : BridgeInfo)
    (st : St) (db : Db) :
    DbOnlyBridge db (init_bridge useLx b info st db).2.1 b := by
  dsimp only [init_bridge]
  have h0 : DbOnlyBridge db {db with bridges := setdefaultA db.bridges b {}} b :=
    dbParentsOnly_toOnly (setdefault_parentsOnly db b)
  split
  · next st1 db1 e heq =>
    rcases bridge_family_step_db b true info.iprange info.ipaddress _ _ with ⟨bc1, hbc⟩
    rw [heq] at hbc
    exact dbOnlyBridge_compose h0 (Or.inr ⟨bc1, hbc⟩)
  · next st1 db1 heq =>
    rcases bridge_family_step_db b true info.iprange info.ipaddress _ _ with ⟨bc1, hbc⟩
    rw [heq] at hbc
    have h1 : DbOnlyBridge db db1 b := dbOnlyBridge_compose h0 (Or.inr ⟨bc1, hbc⟩)
    split
    · next st2 db2 e heq2 =>
      rcases bridge_family_step_db b false info.ip6range info.ip6address st1 db1 with ⟨bc2, hbc2⟩
      rw [heq2] at hbc2
      exact dbOnlyBridge_compose h1 (Or.inr ⟨bc2, hbc2⟩)
    · next st2 db2 heq2 =>
      rcases bridge_family_step_db b false info.ip6range info.ip6address st1 db1 with ⟨bc2, hbc2⟩
      rw [heq2] at hbc2
      exact dbOnlyBridge_compose (dbOnlyBridge_compose h1 (Or.inr ⟨bc2, hbc2⟩))
        (dbParentsOnly_toOnly (parentsFold_parentsOnly useLx b info.parents st2 db2))

theorem ctr_create_db (c : String) (info : ContainerInfo) (opts : List String)
    (st : St) (db : Db) : (ctr_create c info opts st db).2.1 = db := by
  dsimp only [ctr_create]

theorem add_iface_to_container_dbOnly (c : String) (info : ContainerInfo)
    (st : St) (db : Db) :
    DbOnlyBridge db (add_iface_to_container c info st db).2.1 info.bridge := by
  dsimp only [add_iface_to_container]
  repeat' split
  all_goals first
    | exact Or.inl rfl
    | exact Or.inr ⟨_, rfl⟩

/-! ## The failure counter through the pass body -/

theorem bridgesFold_failed (useLx : Bool) (bs : List (String × BridgeInfo))
    (st : St) (db : Db) : (bridgesFold useLx bs st db).2.1.failed = db.failed := by
  induction bs generalizing st db with
  | nil => rfl
  | cons p rest ih =>
    rcases p with ⟨b, info⟩
    dsimp only [bridgesFold]
    rcases hr : init_bridge useLx b info st db with ⟨st1, db1, _ | e⟩
    · have h1 := dbOnlyBridge_failedEq (init_bridge_dbOnly useLx b info st db)
      rw [hr] at h1
      rw [ih st1 db1, h1]
    · have h1 := dbOnlyBridge_failedEq (init_bridge_dbOnly useLx b info st db)
      rw [hr] at h1
      exact h1

theorem ctrInfosFold_failed (cname : String) (infos : List ContainerInfo)
    (st : St) (db : Db) : (ctrInfosFold cname infos st db).2.1.failed = db.failed := by
  induction infos generalizing st db with
  | nil => rfl
  | cons info rest ih =>
    dsimp only [ctrInfosFold]
    rcases hr : add_iface_to_container cname info st db with ⟨st1, db1, _ | e⟩
    · have h1 := dbOnlyBridge_failedEq (add_iface_to_container_dbOnly cname info st db)
      rw [hr] at h1
      rw [ih st1 db1, h1]
    · have h1 := dbOnlyBridge_failedEq (add_iface_to_container_dbOnly cname info st db)
      rw [hr] at h1
      exact h1

theorem containersFold_failed (cs : List (String × List ContainerInfo))
    (st : St) (db : Db) : (containersFold cs st db).2.1.failed = db.failed := by
  induction cs generalizing st db with
  | nil => rfl
  | cons p rest ih =>
    rcases p with ⟨cname, infos⟩
    dsimp only [containersFold]
    rcases hr : ctrInfosFold cname infos st db with ⟨st1, db1, _ | e⟩
    · have h1 := ctrInfosFold_failed cname infos st db
      rw [hr] at h1
      rw [ih st1 db1, h1]
    · have h1 := ctrInfosFold_failed cname infos st db
      rw [hr] at h1
      exact h1

theorem pass_body_failed (useLx : Bool) (cfg : Config) (st : St) (db : Db) :
    (pass_body useLx cfg st db).2.1.failed = db.failed := by
  dsimp only [pass_body]
  rcases h1 : bridgesFold useLx cfg.bridge st db with ⟨st1, db1, _ | e⟩
  · have hb := bridgesFold_failed useLx cfg.bridge st db
    rw [h1] at hb
    dsimp only at hb ⊢
    rcases h2 : containersFold cfg.container st1 db1 with ⟨st2, db2, _ | e2⟩
    · have hc := containersFold_failed cfg.container st1 db1
      rw [h2] at hc
      dsimp only at hc ⊢
      split
      · dsimp only
        rw [hc, hb]
      · dsimp only
        rw [hc, hb]
    · have hc := containersFold_failed cfg.container st1 db1
      rw [h2] at hc
      dsimp only at hc ⊢
      rw [hc, hb]
  · have hb := bridgesFold_failed useLx cfg.bridge st db
    rw [h1] at hb
    dsimp only at hb ⊢
    exact hb

/-! ## Projections of `mainRun` through the basic-bridge preamble -/

theorem mainRun_proj (useLx : Bool) (cfg : Config) (live0 : LiveState) (db0 : Db) :
    (mainRun useLx cfg live0 db0).ranBody =
      (mainPass db0 (mainBody useLx cfg live0)).ranBody ∧
    (mainRun useLx cfg live0 db0).saved =
      (mainPass db0 (mainBody useLx cfg live0)).saved ∧
    (mainRun useLx cfg live0 db0).stored =
      (mainPass db0 (mainBody useLx cfg live0)).stored ∧
    (mainRun useLx cfg live0 db0).err =
      (mainPass db0 (mainBody useLx cfg live0)).err ∧
    (mainRun useLx cfg live0 db0).exitNonzero =
      (mainPass db0 (mainBody useLx cfg live0)).exitNonzero ∧
    (mainRun useLx cfg live0 db0).trace =
      (if useLx then [NetCmd.sysctlBrNf] else []) ++
        (mainPass db0 (mainBody useLx cfg live0)).trace := by
  dsimp only [mainRun, mainBody]
  cases useLx <;> exact ⟨rfl, rfl, rfl, rfl, rfl, rfl⟩

theorem mainPass_stored_failed (db0 : Db)
    (body : Db → Db × List NetCmd × Option OrchErr)
    (hbody : ∀ db, (body db).1.failed = db.failed)
    (h : (mainPass db0 body).ranBody = true) :
    (mainPass db0 body).stored.failed =
      some (if (mainPass db0 body).err.any OrchErr.isCaught
            then db0.failed.getD 0 + 1 else db0.failed.getD 0) := by
  dsimp only [mainPass] at h ⊢
  by_cases hb : db0.failed.getD 0 > MAX_FAIL_COUNT
  · rw [if_pos hb] at h
    simp at h
  · rw [if_neg hb] at h ⊢
    clear h
    have hf := hbody {db0 with failed := some (db0.failed.getD 0)}
    rcases hr : body {db0 with failed := some (db0.failed.getD 0)} with ⟨db1, tr, _ | e⟩
    · rw [hr] at hf
      dsimp only
      rw [hf]
      simp [Option.any]
    · rw [hr] at hf
      dsimp only
      by_cases he : e.isCaught = true
      · rw [if_pos he]
        simp [Option.any, he]
      · rw [if_neg he]
        rw [hf]
        simp [Option.any, he]

/-! ## Claims C2, C3, C4: the pass controller -/

/-- C2 (corrected): the `finally` dump of the Lease Cache runs exactly when
the `try` block is entered, i.e. when the persisted failure counter does not
exceed `_MAX_FAIL_COUNT`.  On the breaker-tripped refusal path `sys.exit(1)`
is raised BEFORE the `try`, so the cache is NOT written back there, against
the claim that every exit path saves it. -/
theorem C2_cache_saved_iff_breaker_untripped (useLx : Bool) (cfg : Config)
    (live0 : LiveState) (db0 : Db) :
    (mainRun useLx cfg live0 db0).saved = true ↔
      db0.failed.getD 0 ≤ MAX_FAIL_COUNT := by
  obtain ⟨-, h2, -, -, -, -⟩ := mainRun_proj useLx cfg live0 db0
  rw [h2]
  dsimp only [mainPass]
  by_cases h : db0.failed.getD 0 > MAX_FAIL_COUNT
  · rw [if_pos h]
    constructor
    · intro hs
      simp at hs
    · intro hle
      exact absurd hle (not_le.mpr h)
  · rw [if_neg h]
    have hle : db0.failed.getD 0 ≤ MAX_FAIL_COUNT := not_lt.mp h
    constructor
    · intro _
      exact hle
    · intro _
      split
      · rfl
      · split <;> rfl

/-- C2 counterexample: with the counter already past the maximum the process
exits without writing the Lease Cache back (and with a nonzero status). -/
theorem C2_counterexample :
    (mainRun false {} {} {failed := some 3}).saved = false ∧
    (mainRun false {} {} {failed := some 3}).exitNonzero = true := ⟨rfl, rfl⟩

/-- C3 (corrected): once the persisted counter EXCEEDS `_MAX_FAIL_COUNT = 2`
(the check is `> 2`, not `== 2`, so a third pass that starts at the maximum
still runs), the pass refuses to run the body: nothing is issued to the
network beyond the basic-bridge-mode `sysctl` preamble (which runs before the
check), nothing is saved, and the process exits with status 1 — silently, the
stored document and trace carrying no report. -/
theorem C3_breaker_trip (useLx : Bool) (cfg : Config) (live0 : LiveState)
    (db0 : Db) (h : db0.failed.getD 0 > MAX_FAIL_COUNT) :
    mainRun useLx cfg live0 db0 =
      {ranBody := false, saved := false, stored := db0,
       trace := if useLx then [.sysctlBrNf] else [],
       exitNonzero := true, err := none} := by
  dsimp only [mainRun, mainPass]
  rw [if_pos h]
  cases useLx <;> rfl

/-- Witness for C3 at a concrete tripped counter. -/
theorem C3_breaker_trip_witness :
    mainRun false {} {} {failed := some 3} =
      {ranBody := false, saved := false, stored := {failed := some 3},
       trace := if false then [.sysctlBrNf] else [],
       exitNonzero := true, err := none} :=
  C3_breaker_trip false {} {} {failed := some 3} (by decide)

/-- C3 counterexample: after exactly two failed passes the counter reads 2 —
the spec calls that the tripped state — yet the third pass runs the body and
issues mutating calls (here the `ip addr flush` + `ip addr add` of a bridge
address). -/
theorem C3_counterexample :
    (mainRun false
        {bridge := [("br0", {ipaddress := some {v4 := true, host := 3232235777, pfx := 24}})]}
        {} {failed := some 2}).ranBody = true ∧
    ((mainRun false
        {bridge := [("br0", {ipaddress := some {v4 := true, host := 3232235777, pfx := 24}})]}
        {} {failed := some 2}).trace.any NetCmd.mutating) = true := by
  constructor
  · rfl
  · rfl

/-- C4 (corrected): a pass that runs the body stores, on success and on an
uncaught error, the SAME counter value it started from (merely normalised by
the `setdefault`), and on a caught error that value plus one.  In particular
a successful pass does NOT reset the counter to zero: no path ever lowers
it. -/
theorem C4_success_keeps_counter (useLx : Bool) (cfg : Config)
    (live0 : LiveState) (db0 : Db)
    (h : (mainRun useLx cfg live0 db0).ranBody = true) :
    (mainRun useLx cfg live0 db0).stored.failed =
      some (if (mainRun useLx cfg live0 db0).err.any OrchErr.isCaught
            then db0.failed.getD 0 + 1 else db0.failed.getD 0) := by
  obtain ⟨h1, -, h3, h4, -, -⟩ := mainRun_proj useLx cfg live0 db0
  rw [h3, h4]
  rw [h1] at h
  refine mainPass_stored_failed db0 (mainBody useLx cfg live0) ?_ h
  intro db
  dsimp only [mainBody]
  exact pass_body_failed useLx cfg {trace := [], live := live0} db

/-- Witness for C4: an empty document reconciles successfully and keeps the
(normalised) zero counter. -/
theorem C4_success_keeps_counter_witness :
    (mainRun false {} {} {}).stored.failed =
      some (if (mainRun false {} {} {}).err.any OrchErr.isCaught
            then ({} : Db).failed.getD 0 + 1 else ({} : Db).failed.getD 0) :=
  C4_success_keeps_counter false {} {} {} (by decide)

/-- C4 counterexample: a fully successful pass started with a nonzero counter
stores that counter unchanged — not zero, as the reset claim would have it. -/
theorem C4_counterexample :
    (mainRun false {} {} {failed := some 1}).err = none ∧
    (mainRun false {} {} {failed := some 1}).stored.failed = some 1 ∧
    (mainRun false {} {} {failed := some 1}).stored.failed ≠ some 0 := by
  refine ⟨rfl, rfl, ?_⟩
  decide

set_option maxRecDepth 40000

/-! ## Claim C5: auto-allocation -/

theorem find?_first {α : Type} (p : α → Bool) (l : List α) (x : α)
    (h : l.find? p = some x) :
    ∃ l1 l2, l = l1 ++ x :: l2 ∧ p x = true ∧ ∀ y ∈ l1, p y = false := by
  induction l with
  | nil => simp at h
  | cons a rest ih =>
    by_cases hp : p a = true
    · rw [List.find?_cons_of_pos _ hp] at h
      injection h with h
      subst h
      exact ⟨[], rest, rfl, hp, by simp⟩
    · rw [List.find?_cons_of_neg _ (by simpa using hp)] at h
      obtain ⟨l1, l2, hl, hx, hall⟩ := ih h
      refine ⟨a :: l1, l2, by simp [hl], hx, ?_⟩
      intro y hy
      rcases List.mem_cons.mp hy with rfl | hy2
      · simpa using hp
      · exact hall y hy2

theorem hostsList_sorted (r : Cidr) : r.hostsList.Sorted (· < ·) := by
  unfold Cidr.hostsList
  split
  · refine (List.pairwise_lt_range _).map _ ?_
    intro a b hab
    omega
  · split
    · refine List.Pairwise.cons ?_ (List.Pairwise.cons ?_ List.Pairwise.nil)
      · intro b hb
        simp at hb
        omega
      · intro b hb
        simp at hb
    · exact List.pairwise_singleton _ _

/-- C5 (corrected): over any well-formed range with at least 5 host
addresses, auto-allocation enumerates hosts in ascending order, never
returns any of the first 5, commits the first address not already a value of
the map, and returns the range-exhausted error exactly when every host past
the first 5 is taken; on the spec's 192.168.0.0/24 scenario the first two
allocations are .6 and .7.  The spec misses that a range with FEWER than 5
host addresses makes the skip loop raise an uncaught StopIteration instead
of the promised RangeExhausted error (see the counterexample). -/
theorem C5_auto_allocate_contract (cname : String) (r : Cidr)
    (hosts : List (String × String)) (hwf : r.wf = true)
    (hlen : 5 ≤ r.hostsList.length) :
    r.hostsList.Sorted (· < ·) ∧
    (∀ a m, auto_allocate cname r hosts = .ok a m →
      ∃ pre h post, r.hostsList.drop 5 = pre ++ h :: post ∧
        a = r.renderHost h ∧ a ∉ valuesA hosts ∧ m = setA hosts cname a ∧
        ∀ g ∈ pre, r.renderHost g ∈ valuesA hosts) ∧
    (auto_allocate cname r hosts = .exhausted ↔
      ∀ h ∈ r.hostsList.drop 5, r.renderHost h ∈ valuesA hosts) ∧
    auto_allocate "c1" {v4 := true, base := 3232235520, pfx := 24} [] =
      .ok "192.168.0.6/24" [("c1", "192.168.0.6/24")] ∧
    auto_allocate "c2" {v4 := true, base := 3232235520, pfx := 24}
        [("c1", "192.168.0.6/24")] =
      .ok "192.168.0.7/24" [("c1", "192.168.0.6/24"), ("c2", "192.168.0.7/24")] := by
  refine ⟨hostsList_sorted r, ?_, ?_, by decide, by decide⟩
  · intro a m hok
    dsimp only [auto_allocate] at hok
    rw [if_neg (not_not_intro hwf), if_neg (not_lt.mpr hlen)] at hok
    rcases hf : (r.hostsList.drop 5).find?
        (fun h => decide (r.renderHost h ∉ valuesA hosts)) with _ | h
    · rw [hf] at hok
      simp at hok
    · rw [hf] at hok
      dsimp only at hok
      injection hok with h1 h2
      obtain ⟨pre, post, hl, hx, hall⟩ := find?_first _ _ _ hf
      refine ⟨pre, h, post, hl, h1.symm, ?_, ?_, ?_⟩
      · rw [← h1]
        exact of_decide_eq_true hx
      · rw [← h2, ← h1]
      · intro g hg
        have := hall g hg
        simpa using this
  · dsimp only [auto_allocate]
    rw [if_neg (not_not_intro hwf), if_neg (not_lt.mpr hlen)]
    rcases hf : (r.hostsList.drop 5).find?
        (fun h => decide (r.renderHost h ∉ valuesA hosts)) with _ | h
    · constructor
      · intro _ g hg
        have hgp := List.find?_eq_none.mp hf g hg
        simpa using hgp
      · intro _
        rfl
    · constructor
      · intro hcontra
        simp at hcontra
      · intro hall
        have hp := List.find?_some hf
        have hmem := List.mem_of_find?_eq_some hf
        rw [decide_eq_true_eq] at hp
        exact absurd (hall h hmem) hp

/-- Witness for C5 on the 192.168.0.0/24 range of the spec scenario. -/
theorem C5_auto_allocate_contract_witness :
    ({v4 := true, base := 3232235520, pfx := 24} : Cidr).wf = true ∧
    5 ≤ ({v4 := true, base := 3232235520, pfx := 24} : Cidr).hostsList.length ∧
    (({v4 := true, base := 3232235520, pfx := 24} : Cidr).hostsList.Sorted (· < ·) ∧
     (∀ a m, auto_allocate "c9" {v4 := true, base := 3232235520, pfx := 24} [] = .ok a m →
       ∃ pre h post,
         ({v4 := true, base := 3232235520, pfx := 24} : Cidr).hostsList.drop 5 =
           pre ++ h :: post ∧
         a = ({v4 := true, base := 3232235520, pfx := 24} : Cidr).renderHost h ∧
         a ∉ valuesA [] ∧ m = setA [] "c9" a ∧
         ∀ g ∈ pre,
           ({v4 := true, base := 3232235520, pfx := 24} : Cidr).renderHost g ∈ valuesA []) ∧
     (auto_allocate "c9" {v4 := true, base := 3232235520, pfx := 24} [] = .exhausted ↔
       ∀ h ∈ ({v4 := true, base := 3232235520, pfx := 24} : Cidr).hostsList.drop 5,
         ({v4 := true, base := 3232235520, pfx := 24} : Cidr).renderHost h ∈ valuesA []) ∧
     auto_allocate "c1" {v4 := true, base := 3232235520, pfx := 24} [] =
       .ok "192.168.0.6/24" [("c1", "192.168.0.6/24")] ∧
     auto_allocate "c2" {v4 := true, base := 3232235520, pfx := 24}
         [("c1", "192.168.0.6/24")] =
       .ok "192.168.0.7/24" [("c1", "192.168.0.6/24"), ("c2", "192.168.0.7/24")]) :=
  ⟨by decide, by decide,
   C5_auto_allocate_contract "c9" {v4 := true, base := 3232235520, pfx := 24} []
     (by decide) (by decide)⟩

/-- C5 counterexample: a well-formed /30 range has only 2 host addresses, so
the skip-first-5 loop exhausts the iterator: the result is the uncaught
StopIteration crash, not the RangeExhausted (IndexError) failure the spec
promises when no address remains. -/
theorem C5_counterexample :
    auto_allocate "c1" {v4 := true, base := 167772160, pfx := 30} [] = .shortRange ∧
    (AllocRes.shortRange ≠ AllocRes.exhausted) ∧
    OrchErr.isCaught .skipStopIteration = false := by
  refine ⟨by decide, by decide, rfl⟩

/-! ## Claim C6: range change clears the host map -/

theorem lookupA_eq_none_of_keys {α : Type} (m : List (String × α)) (k : String)
    (h : ∀ p ∈ m, p.1 ≠ k) : lookupA m k = none := by
  induction m with
  | nil => rfl
  | cons p rest ih =>
    rcases p with ⟨k1, v1⟩
    have hne : k1 ≠ k := h (k1, v1) (List.mem_cons_self _ _)
    simp only [lookupA, if_neg hne]
    exact ih (fun q hq => h q (List.mem_cons_of_mem _ hq))


theorem bridge_apply_ip_f4_keeps (brName : String) (ipRange : Option Cidr)
    (a : IpIntf) (cc : Bool) (hosts : List (String × String)) (st : St)
    (bc : BrCache) (db : Db) :
    (getBr (bridge_apply_ip brName true ipRange a cc hosts st bc db).2.1
        brName).ip6range = bc.ip6range ∧
    (getBr (bridge_apply_ip brName true ipRange a cc hosts st bc db).2.1
        brName).ip6rangeHosts = bc.ip6rangeHosts := by
  constructor <;> (dsimp only [bridge_apply_ip]; repeat' split) <;>
    first
      | contradiction
      | rw [getBr_setBr_self]

theorem bridge_apply_ip_f6_keeps (brName : String) (ipRange : Option Cidr)
    (a : IpIntf) (cc : Bool) (hosts : List (String × String)) (st : St)
    (bc : BrCache) (db : Db) :
    (getBr (bridge_apply_ip brName false ipRange a cc hosts st bc db).2.1
        brName).iprange = bc.iprange ∧
    (getBr (bridge_apply_ip brName false ipRange a cc hosts st bc db).2.1
        brName).iprangeHosts = bc.iprangeHosts := by
  constructor <;> (dsimp only [bridge_apply_ip]; repeat' split) <;>
    first
      | contradiction
      | rw [getBr_setBr_self]

theorem bridge_family_step_f4_keeps (brName : String) (ipRange : Option Cidr)
    (ipAddr : Option IpIntf) (st : St) (db : Db) :
    (getBr (bridge_family_step brName true ipRange ipAddr st db).2.1
        brName).ip6range = (getBr db brName).ip6range ∧
    (getBr (bridge_family_step brName true ipRange ipAddr st db).2.1
        brName).ip6rangeHosts = (getBr db brName).ip6rangeHosts := by
  rcases ipAddr with _ | a
  · constructor <;> (dsimp only [bridge_family_step]; repeat' split) <;>
      first
        | contradiction
        | rw [getBr_setBr_self]
  · constructor <;> (dsimp only [bridge_family_step]; repeat' split) <;>
      first
        | contradiction
        | rw [getBr_setBr_self]
        | exact (bridge_apply_ip_f4_keeps brName ipRange a true _ _ _ db).1
        | exact (bridge_apply_ip_f4_keeps brName ipRange a false _ _ _ db).1
        | exact (bridge_apply_ip_f4_keeps brName ipRange a true _ _ _ db).2
        | exact (bridge_apply_ip_f4_keeps brName ipRange a false _ _ _ db).2

theorem bridge_family_step_f6_keeps (brName : String) (ipRange : Option Cidr)
    (ipAddr : Option IpIntf) (st : St) (db : Db) :
    (getBr (bridge_family_step brName false ipRange ipAddr st db).2.1
        brName).iprange = (getBr db brName).iprange ∧
    (getBr (bridge_family_step brName false ipRange ipAddr st db).2.1
        brName).iprangeHosts = (getBr db brName).iprangeHosts := by
  rcases ipAddr with _ | a
  · constructor <;> (dsimp only [bridge_family_step]; repeat' split) <;>
      first
        | contradiction
        | rw [getBr_setBr_self]
  · constructor <;> (dsimp only [bridge_family_step]; repeat' split) <;>
      first
        | contradiction
        | rw [getBr_setBr_self]
        | exact (bridge_apply_ip_f6_keeps brName ipRange a true _ _ _ db).1
        | exact (bridge_apply_ip_f6_keeps brName ipRange a false _ _ _ db).1
        | exact (bridge_apply_ip_f6_keeps brName ipRange a true _ _ _ db).2
        | exact (bridge_apply_ip_f6_keeps brName ipRange a false _ _ _ db).2

theorem bridge_apply_ip_success_hosts4 (brName : String) (ipRange : Option Cidr)
    (a : IpIntf) (cc : Bool) (hosts : List (String × String)) (st : St)
    (bc : BrCache) (db : Db) (st1 : St) (db1 : Db)
    (h : bridge_apply_ip brName true ipRange a cc hosts st bc db = (st1, db1, none)) :
    (getBr db1 brName).iprangeHosts = setA hosts brName a.render := by
  dsimp only [bridge_apply_ip] at h
  repeat' split at h
  all_goals first
    | contradiction
    | (rw [Prod.mk.injEq, Prod.mk.injEq] at h
       obtain ⟨-, h2, h3⟩ := h
       first
         | exact Option.noConfusion h3
         | (subst h2; rw [getBr_setBr_self]))

theorem bridge_apply_ip_success_hosts6 (brName : String) (ipRange : Option Cidr)
    (a : IpIntf) (cc : Bool) (hosts : List (String × String)) (st : St)
    (bc : BrCache) (db : Db) (st1 : St) (db1 : Db)
    (h : bridge_apply_ip brName false ipRange a cc hosts st bc db = (st1, db1, none)) :
    (getBr db1 brName).ip6rangeHosts = setA hosts brName a.render := by
  dsimp only [bridge_apply_ip] at h
  repeat' split at h
  all_goals first
    | contradiction
    | (rw [Prod.mk.injEq, Prod.mk.injEq] at h
       obtain ⟨-, h2, h3⟩ := h
       first
         | exact Option.noConfusion h3
         | (subst h2; rw [getBr_setBr_self]))

theorem bridge_family_step_v4_changed (brName : String) (ipRange : Option Cidr)
    (ipAddr : Option IpIntf) (st : St) (db : Db) (st1 : St) (db1 : Db)
    (hch : ipRange ≠ (getBr db brName).iprange)
    (hsucc : bridge_family_step brName true ipRange ipAddr st db = (st1, db1, none)) :
    ∀ p ∈ (getBr db1 brName).iprangeHosts, p.1 = brName := by
  rcases ipAddr with _ | a
  · simp only [bridge_family_step, reduceIte] at hsucc
    rw [if_pos hch] at hsucc
    rw [Prod.mk.injEq, Prod.mk.injEq] at hsucc
    obtain ⟨-, h2, -⟩ := hsucc
    subst h2
    intro p hp
    rw [getBr_setBr_self] at hp
    simp [eraseA] at hp
  · simp only [bridge_family_step, reduceIte] at hsucc
    rw [if_pos hch] at hsucc
    split at hsucc
    · have hhosts := bridge_apply_ip_success_hosts4 _ _ _ _ _ _ _ _ _ _ hsucc
      intro p hp
      rw [hhosts] at hp
      simp [setA, eraseA, lookupA] at hp
      rw [hp]
    · rename_i hcond
      exfalso
      have hc2 := not_not.mp hcond
      simp [lookupA] at hc2

theorem bridge_family_step_v6_changed (brName : String) (ipRange : Option Cidr)
    (ipAddr : Option IpIntf) (st : St) (db : Db) (st1 : St) (db1 : Db)
    (hch : ipRange ≠ (getBr db brName).ip6range)
    (hsucc : bridge_family_step brName false ipRange ipAddr st db = (st1, db1, none)) :
    ∀ p ∈ (getBr db1 brName).ip6rangeHosts, p.1 = brName := by
  rcases ipAddr with _ | a
  · simp only [bridge_family_step, reduceIte, Bool.false_eq_true, if_false] at hsucc
    rw [if_pos hch] at hsucc
    rw [Prod.mk.injEq, Prod.mk.injEq] at hsucc
    obtain ⟨-, h2, -⟩ := hsucc
    subst h2
    intro p hp
    rw [getBr_setBr_self] at hp
    simp [eraseA] at hp
  · simp only [bridge_family_step, reduceIte, Bool.false_eq_true, if_false] at hsucc
    rw [if_pos hch] at hsucc
    split at hsucc
    · have hhosts := bridge_apply_ip_success_hosts6 _ _ _ _ _ _ _ _ _ _ hsucc
      intro p hp
      rw [hhosts] at hp
      simp [setA, eraseA, lookupA] at hp
      rw [hp]
    · rename_i hcond
      exfalso
      have hc2 := not_not.mp hcond
      simp [lookupA] at hc2

theorem bridge_family_step_f4_keeps_eq (brName : String) (ipRange : Option Cidr)
    (ipAddr : Option IpIntf) (st : St) (db : Db) (st1 : St) (db1 : Db)
    (e : Option OrchErr)
    (h : bridge_family_step brName true ipRange ipAddr st db = (st1, db1, e)) :
    (getBr db1 brName).ip6range = (getBr db brName).ip6range ∧
    (getBr db1 brName).ip6rangeHosts = (getBr db brName).ip6rangeHosts := by
  have hk := bridge_family_step_f4_keeps brName ipRange ipAddr st db
  rw [h] at hk
  exact hk

theorem bridge_family_step_f6_keeps_eq (brName : String) (ipRange : Option Cidr)
    (ipAddr : Option IpIntf) (st : St) (db : Db) (st1 : St) (db1 : Db)
    (e : Option OrchErr)
    (h : bridge_family_step brName false ipRange ipAddr st db = (st1, db1, e)) :
    (getBr db1 brName).iprange = (getBr db brName).iprange ∧
    (getBr db1 brName).iprangeHosts = (getBr db brName).iprangeHosts := by
  have hk := bridge_family_step_f6_keeps brName ipRange ipAddr st db
  rw [h] at hk
  exact hk

/-- C6: when the configured range CIDR of a bridge differs from the cached
one, `init_bridge` rewrites the entry with an EMPTY host map before any
reservation logic, and the only binding the rest of the successful run can
add to that map is the bridge's own address under the bridge's own key — so
after the pass no key other than the bridge's has a binding, and in
particular an allocation made after the change can never collide with a
pre-change allocation held by a different host key. -/
theorem C6_range_change_clears_hosts (useLx : Bool) (brName : String)
    (info : BridgeInfo) (st : St) (db : Db) (st1 : St) (db1 : Db)
    (hsucc : init_bridge useLx brName info st db = (st1, db1, none)) :
    (info.iprange ≠ (getBr db brName).iprange →
      ∀ k, k ≠ brName → lookupA (getBr db1 brName).iprangeHosts k = none) ∧
    (info.ip6range ≠ (getBr db brName).ip6range →
      ∀ k, k ≠ brName → lookupA (getBr db1 brName).ip6rangeHosts k = none) := by
  dsimp only [init_bridge] at hsucc
  split at hsucc
  · rw [Prod.mk.injEq, Prod.mk.injEq] at hsucc
    exact absurd hsucc.2.2 (by simp)
  · rename_i stA dbA heq4
    split at hsucc
    · rw [Prod.mk.injEq, Prod.mk.injEq] at hsucc
      exact absurd hsucc.2.2 (by simp)
    · rename_i stB dbB heq6
      have hpar := parentsFold_parentsOnly useLx brName info.parents stB dbB
      rw [hsucc] at hpar
      dsimp only at hpar
      obtain ⟨-, -, hk_iprh, hk_ip6rh⟩ := dbParentsOnly_fields hpar
      obtain ⟨-, hf6_hosts⟩ := bridge_family_step_f6_keeps_eq _ _ _ _ _ _ _ _ heq6
      obtain ⟨hf4_range6, -⟩ := bridge_family_step_f4_keeps_eq _ _ _ _ _ _ _ _ heq4
      constructor
      · intro hch k hk
        have hch2 : info.iprange ≠
            (getBr {db with bridges := setdefaultA db.bridges brName {}} brName).iprange := by
          rw [getBr_setdefault_self]
          exact hch
        have hkeys := bridge_family_step_v4_changed _ _ _ _ _ _ _ hch2 heq4
        apply lookupA_eq_none_of_keys
        intro p hp
        rw [hk_iprh, hf6_hosts] at hp
        rw [hkeys p hp]
        exact Ne.symm hk
      · intro hch k hk
        have hch2 : info.ip6range ≠ (getBr dbA brName).ip6range := by
          rw [hf4_range6, getBr_setdefault_self]
          exact hch
        have hkeys := bridge_family_step_v6_changed _ _ _ _ _ _ _ hch2 heq6
        apply lookupA_eq_none_of_keys
        intro p hp
        rw [hk_ip6rh] at hp
        rw [hkeys p hp]
        exact Ne.symm hk

/-- Witness for C6: a bridge whose cached 10.0.0.0/24 lease map holds an
allocation for container c1 is reconfigured to 192.168.0.0/24; after the
successful pass the c1 binding is gone. -/
theorem C6_range_change_clears_hosts_witness :
    init_bridge false "br0" {iprange := some {v4 := true, base := 3232235520, pfx := 24}} {} {bridges := [("br0", {iprange := some {v4 := true, base := 167772160, pfx := 24}, iprangeHosts := [("c1", "10.0.0.6/24")]})]} =
      ((init_bridge false "br0" {iprange := some {v4 := true, base := 3232235520, pfx := 24}} {} {bridges := [("br0", {iprange := some {v4 := true, base := 167772160, pfx := 24}, iprangeHosts := [("c1", "10.0.0.6/24")]})]}).1, (init_bridge false "br0" {iprange := some {v4 := true, base := 3232235520, pfx := 24}} {} {bridges := [("br0", {iprange := some {v4 := true, base := 167772160, pfx := 24}, iprangeHosts := [("c1", "10.0.0.6/24")]})]}).2.1, none) ∧
    (((some {v4 := true, base := 3232235520, pfx := 24} : Option Cidr) ≠
        (getBr {bridges := [("br0", {iprange := some {v4 := true, base := 167772160, pfx := 24}, iprangeHosts := [("c1", "10.0.0.6/24")]})]} "br0").iprange →
      ∀ k, k ≠ "br0" →
        lookupA (getBr (init_bridge false "br0" {iprange := some {v4 := true, base := 3232235520, pfx := 24}} {} {bridges := [("br0", {iprange := some {v4 := true, base := 167772160, pfx := 24}, iprangeHosts := [("c1", "10.0.0.6/24")]})]}).2.1 "br0").iprangeHosts k = none) ∧
     ((none : Option Cidr) ≠
        (getBr {bridges := [("br0", {iprange := some {v4 := true, base := 167772160, pfx := 24}, iprangeHosts := [("c1", "10.0.0.6/24")]})]} "br0").ip6range →
      ∀ k, k ≠ "br0" →
        lookupA (getBr (init_bridge false "br0" {iprange := some {v4 := true, base := 3232235520, pfx := 24}} {} {bridges := [("br0", {iprange := some {v4 := true, base := 167772160, pfx := 24}, iprangeHosts := [("c1", "10.0.0.6/24")]})]}).2.1 "br0").ip6rangeHosts k = none)) :=
  ⟨by rfl,
   C6_range_change_clears_hosts false "br0" {iprange := some {v4 := true, base := 3232235520, pfx := 24}} {} {bridges := [("br0", {iprange := some {v4 := true, base := 167772160, pfx := 24}, iprangeHosts := [("c1", "10.0.0.6/24")]})]} _ _ (by rfl)⟩

/-! ## Claim C7: explicit reservation -/

/-- C7: the explicit-reservation contract.  (1) If the map already binds the
key to this address the reservation succeeds and changes no binding.
(2) Otherwise, after the stale binding of the key is dropped, an address
already held by another key is an AddressConflict, and (3) when no conflict
exists the binding is committed.  (4) Hence reserving one address for two
distinct keys fails on the second reservation (when the second key did not
already hold that address). -/
theorem C7_reserve_contract (cname addr : String)
    (hosts : List (String × String)) :
    (lookupA hosts cname = some addr →
      ∃ m, reserve_explicit cname addr hosts = .ok m ∧
        ∀ k, lookupA m k = lookupA hosts k) ∧
    (lookupA hosts cname ≠ some addr →
      addr ∈ valuesA (eraseA hosts cname) →
      reserve_explicit cname addr hosts = .conflict) ∧
    (lookupA hosts cname ≠ some addr →
      addr ∉ valuesA (eraseA hosts cname) →
      reserve_explicit cname addr hosts = .ok (setA (eraseA hosts cname) cname addr) ∧
        lookupA (setA (eraseA hosts cname) cname addr) cname = some addr) ∧
    (∀ c2 m1, c2 ≠ cname → reserve_explicit cname addr hosts = .ok m1 →
      lookupA hosts c2 ≠ some addr → reserve_explicit c2 addr m1 = .conflict) := by
  refine ⟨?_, ?_, ?_, ?_⟩
  · intro hb
    refine ⟨setA hosts cname addr, ?_, ?_⟩
    · dsimp only [reserve_explicit]
      rw [if_neg (not_not_intro hb.symm)]
    · intro k
      by_cases hk : k = cname
      · subst hk
        rw [lookupA_setA_self, hb]
      · exact lookupA_setA_ne hosts cname k addr hk
  · intro hne hmem
    dsimp only [reserve_explicit]
    rw [if_pos (fun he => hne he.symm), if_pos hmem]
  · intro hne hmem
    dsimp only [reserve_explicit]
    rw [if_pos (fun he => hne he.symm), if_neg hmem]
    exact ⟨rfl, lookupA_setA_self _ _ _⟩
  · intro c2 m1 hc2 hok hne2
    dsimp only [reserve_explicit] at hok
    by_cases hb : some addr = lookupA hosts cname
    · rw [if_neg (not_not_intro hb)] at hok
      injection hok with hm1
      subst hm1
      dsimp only [reserve_explicit]
      have hl2 : lookupA (setA hosts cname addr) c2 = lookupA hosts c2 :=
        lookupA_setA_ne hosts cname c2 addr hc2
      rw [if_pos (show some addr ≠ lookupA (setA hosts cname addr) c2 from by
        rw [hl2]; exact fun he => hne2 he.symm)]
      have hmem : addr ∈ valuesA (eraseA (setA hosts cname addr) c2) := by
        apply mem_valuesA_of_lookupA _ cname
        rw [lookupA_eraseA_ne _ _ _ (Ne.symm hc2)]
        exact lookupA_setA_self _ _ _
      rw [if_pos hmem]
    · rw [if_pos hb] at hok
      by_cases hmem : addr ∈ valuesA (eraseA hosts cname)
      · rw [if_pos hmem] at hok
        exact ReserveRes.noConfusion hok
      · rw [if_neg hmem] at hok
        injection hok with hm1
        subst hm1
        dsimp only [reserve_explicit]
        have hl2 : lookupA (setA (eraseA hosts cname) cname addr) c2 =
            lookupA hosts c2 := by
          rw [lookupA_setA_ne _ _ _ _ hc2, lookupA_eraseA_ne _ _ _ hc2]
        rw [if_pos (show some addr ≠
            lookupA (setA (eraseA hosts cname) cname addr) c2 from by
          rw [hl2]; exact fun he => hne2 he.symm)]
        have hmem2 : addr ∈
            valuesA (eraseA (setA (eraseA hosts cname) cname addr) c2) := by
          apply mem_valuesA_of_lookupA _ cname
          rw [lookupA_eraseA_ne _ _ _ (Ne.symm hc2)]
          exact lookupA_setA_self _ _ _
        rw [if_pos hmem2]

/-- Witness for C7: both fresh keys reserving 10.0.0.9/24 — the first
commits, the second conflicts. -/
theorem C7_reserve_contract_witness :
    reserve_explicit "c1" "10.0.0.9/24" [] = .ok [("c1", "10.0.0.9/24")] ∧
    reserve_explicit "c2" "10.0.0.9/24" [("c1", "10.0.0.9/24")] = .conflict :=
  ⟨by decide,
   (C7_reserve_contract "c1" "10.0.0.9/24" []).2.2.2 "c2" [("c1", "10.0.0.9/24")]
     (by decide) (by decide) (by decide)⟩

/-! ## Claim C8: VLAN translation endpoints -/

/-- C8: an endpoint whose recorded bridge membership names a different
bridge than the target makes the translation fail with the
VlanTranslationConflict error; an endpoint with no recorded membership is
attached to the target bridge and tagged with its VLAN ID.  On the spec
scenario, mapping 100:200 on brX tags endpoint 0 with 100 and endpoint 1
with 200, and re-translating 100:200 onto brY then fails with the conflict
on endpoint 0. -/
theorem C8_vlan_translation_conflict (onBridge vname vlan : String) (st : St) :
    (∀ b, lookupA st.live.portToBr vname = some b → b ≠ onBridge →
      veth_endpoint_step onBridge vname vlan st =
        (st.emit (.portToBr vname), some (.vethMember vname))) ∧
    (lookupA st.live.portToBr vname = none →
      veth_endpoint_step onBridge vname vlan st =
        (((st.emit (.portToBr vname)).emit (.addPort onBridge vname none none)).emit
            (.setPort vname ("tag=" ++ vlan)), none)) ∧
    ((create_veth_pair "brX" "100:200" {}).2 = none ∧
     NetCmd.setPort "v0_4e0f0408" "tag=100" ∈
       (create_veth_pair "brX" "100:200" {}).1.trace ∧
     NetCmd.setPort "v1_4e0f0408" "tag=200" ∈
       (create_veth_pair "brX" "100:200" {}).1.trace ∧
     NetCmd.addPort "brX" "v0_4e0f0408" none none ∈
       (create_veth_pair "brX" "100:200" {}).1.trace ∧
     NetCmd.addPort "brX" "v1_4e0f0408" none none ∈
       (create_veth_pair "brX" "100:200" {}).1.trace ∧
     (create_veth_pair "brY" "100:200" (create_veth_pair "brX" "100:200" {}).1).2 =
       some (.vethMember "v0_4e0f0408")) := by
  refine ⟨?_, ?_, by decide⟩
  · intro b hb hne
    dsimp only [veth_endpoint_step, St.emit, applyCmd]
    rw [hb]
    dsimp only
    rw [if_pos hne]
  · intro hb
    dsimp only [veth_endpoint_step, St.emit, applyCmd]
    rw [hb]

/-- Witness for C8: endpoint veth0 recorded on brX conflicts when requested
on brY. -/
theorem C8_vlan_translation_conflict_witness :
    veth_endpoint_step "brY" "veth0" "100"
        {live := {portToBr := [("veth0", "brX")]}} =
      (St.emit {live := {portToBr := [("veth0", "brX")]}} (.portToBr "veth0"),
       some (.vethMember "veth0")) :=
  (C8_vlan_translation_conflict "brY" "veth0" "100"
      {live := {portToBr := [("veth0", "brX")]}}).1 "brX" (by decide) (by decide)

/-! ## Claim C9: deterministic veth names, creation skipped when present -/

theorem veth_endpoint_new_cmds (onBridge vname vlan : String) (st : St) :
    ∃ l, (veth_endpoint_step onBridge vname vlan st).1.trace = st.trace ++ l ∧
      ∀ c ∈ l, ∀ d1 d2, c ≠ .linkAddVeth d1 d2 := by
  dsimp only [veth_endpoint_step, St.emit]
  split
  · refine ⟨[.portToBr vname, .addPort onBridge vname none none,
      .setPort vname ("tag=" ++ vlan)], by simp, ?_⟩
    intro c hc d1 d2
    simp at hc
    rcases hc with rfl | rfl | rfl <;> simp
  · refine ⟨[.portToBr vname], ?_, ?_⟩
    · split <;> simp
    · intro c hc d1 d2
      simp at hc
      subst hc
      simp

theorem veth_endpoint_new_cmds_eq (onBridge vname vlan : String) (st : St)
    (stE : St) (e : Option OrchErr)
    (h : veth_endpoint_step onBridge vname vlan st = (stE, e)) :
    ∃ l, stE.trace = st.trace ++ l ∧ ∀ c ∈ l, ∀ d1 d2, c ≠ .linkAddVeth d1 d2 := by
  obtain ⟨l, hl, hn⟩ := veth_endpoint_new_cmds onBridge vname vlan st
  rw [h] at hl
  exact ⟨l, hl, hn⟩

/-- C9: the endpoint names backing a mapping string are a pure function of
the literal string — the v0/v1 prefixes on its content hash — so every run
derives the same two names; and when the first endpoint is already a host
link, the whole run of `create_veth_pair` issues no `ip link add ... type
veth` call: existence of endpoint 0 alone suppresses creation. -/
theorem C9_veth_deterministic_and_skip (onBridge vmap : String) (st : St)
    (h2 : (splitCh ':' vmap).length = 2)
    (hex : (veth_names vmap).1 ∈ st.live.links) :
    veth_names vmap = ("v0_" ++ hash_string vmap, "v1_" ++ hash_string vmap) ∧
    (veth_names vmap).1 ≠ (veth_names vmap).2 ∧
    ∃ l, (create_veth_pair onBridge vmap st).1.trace = st.trace ++ l ∧
      ∀ c ∈ l, ∀ d1 d2, c ≠ .linkAddVeth d1 d2 := by
  refine ⟨rfl, ?_, ?_⟩
  · intro h
    have h9 : ("v0_" ++ hash_string vmap : String) = "v1_" ++ hash_string vmap := h
    have hd : "v0_".data ++ (hash_string vmap).data =
        "v1_".data ++ (hash_string vmap).data := congrArg String.data h9
    exact absurd (List.append_cancel_right hd) (by decide)
  · dsimp only [create_veth_pair]
    rw [if_pos h2]
    simp only [St.emit, applyCmd]
    rw [if_pos hex]
    split
    · rename_i stE e hrA
      obtain ⟨l0, hl0, hn0⟩ := veth_endpoint_new_cmds_eq _ _ _ _ _ _ hrA
      refine ⟨.linkShow (veth_names vmap).1 :: l0, ?_, ?_⟩
      · rw [hl0]
        simp
      · intro c hc d1 d2
        rcases List.mem_cons.mp hc with rfl | hc2
        · simp
        · exact hn0 c hc2 d1 d2
    · rename_i stE hrA
      obtain ⟨l0, hl0, hn0⟩ := veth_endpoint_new_cmds_eq _ _ _ _ _ _ hrA
      obtain ⟨l1, hl1, hn1⟩ := veth_endpoint_new_cmds onBridge (veth_names vmap).2
        ((splitCh ':' vmap).getD 1 "") stE
      refine ⟨.linkShow (veth_names vmap).1 :: (l0 ++ l1), ?_, ?_⟩
      · rw [hl1, hl0]
        simp
      · intro c hc d1 d2
        rcases List.mem_cons.mp hc with rfl | hc2
        · simp
        · rcases List.mem_append.mp hc2 with hc3 | hc3
          · exact hn0 c hc3 d1 d2
          · exact hn1 c hc3 d1 d2

/-- Witness for C9 on the mapping 100:200 with endpoint 0 already a link. -/
theorem C9_veth_deterministic_and_skip_witness :
    veth_names "100:200" =
      ("v0_" ++ hash_string "100:200", "v1_" ++ hash_string "100:200") ∧
    (veth_names "100:200").1 ≠ (veth_names "100:200").2 ∧
    ∃ l, (create_veth_pair "brX" "100:200"
        {live := {links := ["v0_4e0f0408"]}}).1.trace =
      ({live := {links := ["v0_4e0f0408"]}} : St).trace ++ l ∧
      ∀ c ∈ l, ∀ d1 d2, c ≠ .linkAddVeth d1 d2 :=
  C9_veth_deterministic_and_skip "brX" "100:200" {live := {links := ["v0_4e0f0408"]}}
    (by decide) (by decide)

/-! ## Claim C10: the allocator runs even on the no-action path -/

theorem auto_allocate_ok_basic (cname : String) (r : Cidr)
    (hosts : List (String × String)) (a : String) (m : List (String × String))
    (h : auto_allocate cname r hosts = .ok a m) :
    a ∉ valuesA hosts ∧ m = setA hosts cname a := by
  dsimp only [auto_allocate] at h
  split at h
  · exact AllocRes.noConfusion h
  · split at h
    · exact AllocRes.noConfusion h
    · split at h
      · rename_i hh hfind
        injection h with h1 h2
        subst h1
        subst h2
        have hp := List.find?_some hfind
        rw [decide_eq_true_eq] at hp
        exact ⟨hp, rfl⟩
      · exact AllocRes.noConfusion h

/-- C10: in the terminal-success state — the container is running, the
interface exists both in the container namespace and as a recorded util
port, and the MAC drift-check passes, so the reconciler issues only queries
and no action — the allocator has nevertheless already rerun: the bridge
entry stored for the container is rebound to the allocator's fresh pick,
which (its own previous allocation still being a value in the map) is a
DIFFERENT address than the cached one. -/
theorem C10_allocator_rebinds_on_noop_path (cname : String)
    (info : ContainerInfo) (st : St) (db : Db) (bc0 : BrCache) (r : Cidr)
    (a prev : String) (m : List (String × String))
    (hC : cname ∈ st.live.containers)
    (hBr : lookupA db.bridges info.bridge = some bc0)
    (hNo4 : info.ipaddress = none)
    (hNo6 : info.ip6address = some AddrReq.noIp)
    (hR : (getBr db info.bridge).iprange = some r)
    (hAlloc : auto_allocate cname r (getBr db info.bridge).iprangeHosts = .ok a m)
    (hPrev : lookupA (getBr db info.bridge).iprangeHosts cname = some prev)
    (hIf : (lookupP st.live.ctrIfaces cname info.iface).isSome = true)
    (hPort : (lookupP st.live.utilPorts cname info.iface).isSome = true)
    (hMac : macVisible info.macaddress
      ((lookupP st.live.ctrIfaces cname info.iface).getD "") = true) :
    (add_iface_to_container cname info st db).2.2 = none ∧
    lookupA (getBr (add_iface_to_container cname info st db).2.1
        info.bridge).iprangeHosts cname = some a ∧
    a ≠ prev ∧
    ∀ c ∈ (add_iface_to_container cname info st db).1.trace.drop st.trace.length,
      c.isQuery = true := by
  obtain ⟨hfree, hm⟩ := auto_allocate_ok_basic _ _ _ _ _ hAlloc
  have hane : a ≠ prev := by
    intro he
    subst he
    exact hfree (mem_valuesA_of_lookupA _ _ _ hPrev)
  have h4 : ∃ o4, ctr_family_step cname true (optTruthy info.gateway)
      info.ipaddress (getBr db info.bridge) =
      .ok ({getBr db info.bridge with iprangeHosts := m}, o4) := by
    rw [hNo4]
    dsimp only [ctr_family_step]
    simp only [reduceIte]
    rw [hR]
    dsimp only
    rw [hAlloc]
    exact ⟨_, rfl⟩
  obtain ⟨o4, h4⟩ := h4
  have h6 : ∃ o6, ctr_family_step cname false (optTruthy info.gateway6)
      info.ip6address ({getBr db info.bridge with iprangeHosts := m}) =
      .ok ({getBr db info.bridge with iprangeHosts := m}, o6) := by
    rw [hNo6]
    dsimp only [ctr_family_step]
    exact ⟨_, rfl⟩
  obtain ⟨o6, h6⟩ := h6
  dsimp only [add_iface_to_container]
  simp only [St.emit, applyCmd]
  rw [if_neg (not_not_intro hC), hBr]
  dsimp only
  rw [h4]
  dsimp only
  rw [h6]
  dsimp only
  rw [if_pos hIf, if_pos hPort, if_pos hMac]
  refine ⟨rfl, ?_, hane, ?_⟩
  · rw [getBr_setBr_self]
    rw [hm]
    exact lookupA_setA_self _ _ _
  · intro c hc
    simp only [List.append_assoc] at hc
    rw [List.drop_left] at hc
    simp at hc
    rcases hc with rfl | rfl | rfl | rfl <;> rfl

/-- Witness for C10: container c1 with interface eth0 fully present; the
pass stores 192.168.0.7/24 over the cached 192.168.0.6/24 while issuing
only queries. -/
theorem C10_allocator_rebinds_on_noop_path_witness :
    (add_iface_to_container "c1" {iface := "eth0", bridge := "br0", ip6address := some AddrReq.noIp} {live := {containers := ["c1"], ctrIfaces := [("c1", "eth0", "aa")], utilPorts := [("c1", "eth0", "p")]}} {bridges := [("br0", {iprange := some {v4 := true, base := 3232235520, pfx := 24}, iprangeHosts := [("c1", "192.168.0.6/24")]})]}).2.2 = none ∧
    lookupA (getBr (add_iface_to_container "c1" {iface := "eth0", bridge := "br0", ip6address := some AddrReq.noIp} {live := {containers := ["c1"], ctrIfaces := [("c1", "eth0", "aa")], utilPorts := [("c1", "eth0", "p")]}} {bridges := [("br0", {iprange := some {v4 := true, base := 3232235520, pfx := 24}, iprangeHosts := [("c1", "192.168.0.6/24")]})]}).2.1 "br0").iprangeHosts "c1" = some "192.168.0.7/24" ∧
    ("192.168.0.7/24" : String) ≠ "192.168.0.6/24" ∧
    ∀ c ∈ (add_iface_to_container "c1" {iface := "eth0", bridge := "br0", ip6address := some AddrReq.noIp} {live := {containers := ["c1"], ctrIfaces := [("c1", "eth0", "aa")], utilPorts := [("c1", "eth0", "p")]}} {bridges := [("br0", {iprange := some {v4 := true, base := 3232235520, pfx := 24}, iprangeHosts := [("c1", "192.168.0.6/24")]})]}).1.trace.drop ({live := {containers := ["c1"], ctrIfaces := [("c1", "eth0", "aa")], utilPorts := [("c1", "eth0", "p")]}} : St).trace.length, c.isQuery = true :=
  C10_allocator_rebinds_on_noop_path "c1" {iface := "eth0", bridge := "br0", ip6address := some AddrReq.noIp} {live := {containers := ["c1"], ctrIfaces := [("c1", "eth0", "aa")], utilPorts := [("c1", "eth0", "p")]}} {bridges := [("br0", {iprange := some {v4 := true, base := 3232235520, pfx := 24}, iprangeHosts := [("c1", "192.168.0.6/24")]})]}
    {iprange := some {v4 := true, base := 3232235520, pfx := 24}, iprangeHosts := [("c1", "192.168.0.6/24")]}
    {v4 := true, base := 3232235520, pfx := 24} "192.168.0.7/24" "192.168.0.6/24"
    [("c1", "192.168.0.7/24")]
    (by decide) (by decide) (by decide) (by decide) (by decide) (by decide)
    (by decide) (by decide) (by decide) (by decide)

/-! ## Claim C1: what a settled second pass re-issues

The development below establishes, for each unit reconciler, that a second
run on the state left by a successful first run issues only `pass2Allowed`
commands: pure queries, the create-if-absent bridge probes, and the
unconditionally re-issued `ip link set up` / family `ip addr flush`. -/

theorem veth_endpoint_run1 (onBridge vname vlan : String) (st : St)
    (stE : St) (h : veth_endpoint_step onBridge vname vlan st = (stE, none)) :
    lookupA stE.live.portToBr vname = some onBridge ∧
    stE.live.links = st.live.links ∧
    stE.live.devLines = st.live.devLines ∧
    (∀ w, w ≠ vname → lookupA stE.live.portToBr w = lookupA st.live.portToBr w) := by
  dsimp only [veth_endpoint_step, St.emit, applyCmd] at h
  split at h
  · rename_i hl
    rw [Prod.mk.injEq] at h
    obtain ⟨h1, -⟩ := h
    subst h1
    dsimp only [St.emit, applyCmd]
    refine ⟨?_, rfl, rfl, ?_⟩
    · exact lookupA_setA_self _ _ _
    · intro w hw
      exact lookupA_setA_ne _ _ _ _ hw
  · rename_i b hl
    split at h
    · rw [Prod.mk.injEq] at h
      exact absurd h.2 (by simp)
    · rename_i hb
      rw [Prod.mk.injEq] at h
      obtain ⟨h1, -⟩ := h
      subst h1
      have hbb : b = onBridge := not_not.mp hb
      subst hbb
      exact ⟨hl, rfl, rfl, fun w hw => rfl⟩

theorem C1_veth_unit (onBridge vmap : String) (st : St) (st1 : St)
    (h : create_veth_pair onBridge vmap st = (st1, none)) :
    ∀ c ∈ (create_veth_pair onBridge vmap {trace := [], live := st1.live}).1.trace,
      pass2Allowed c = true := by
  dsimp only [create_veth_pair] at h
  split at h
  · rename_i h2
    -- run 1 succeeded past the unpack check
    split at h
    · rw [Prod.mk.injEq] at h
      exact absurd h.2 (by simp)
    · rename_i stM hM
      -- hM : first endpoint step succeeded, h : second endpoint step = (st1, none)
      obtain ⟨hp0, hlinks0, hdev0, hfr0⟩ := veth_endpoint_run1 _ _ _ _ _ hM
      obtain ⟨hp1, hlinks1, hdev1, hfr1⟩ := veth_endpoint_run1 _ _ _ _ _ h
      have hvne : (veth_names vmap).1 ≠ (veth_names vmap).2 := by
        intro hv
        have h9 : ("v0_" ++ hash_string vmap : String) =
            "v1_" ++ hash_string vmap := hv
        have hd : "v0_".data ++ (hash_string vmap).data =
            "v1_".data ++ (hash_string vmap).data := congrArg String.data h9
        exact absurd (List.append_cancel_right hd) (by decide)
      -- endpoint 0 membership after run 1
      have hp0f : lookupA st1.live.portToBr (veth_names vmap).1 = some onBridge := by
        rw [hfr1 _ hvne]
        exact hp0
      -- endpoint 0 is a link after run 1
      have hex : (veth_names vmap).1 ∈ st1.live.links := by
        rw [hlinks1, hlinks0]
        split
        · rename_i hin
          simpa [St.emit, applyCmd] using hin
        · simp [St.emit, applyCmd]
      -- run 2
      dsimp only [create_veth_pair]
      rw [if_pos h2]
      simp only [St.emit, applyCmd]
      rw [if_pos hex]
      dsimp only [veth_endpoint_step, St.emit, applyCmd]
      rw [hp0f]
      dsimp only
      rw [if_neg (not_not_intro rfl)]
      dsimp only
      rw [hp1]
      dsimp only
      rw [if_neg (not_not_intro rfl)]
      intro c hc
      simp at hc
      rcases hc with rfl | rfl | rfl <;> rfl
  · rw [Prod.mk.injEq] at h
    exact absurd h.2 (by simp)

theorem lookupP_append (m1 m2 : List (String × String × String)) (c i : String) :
    lookupP (m1 ++ m2) c i =
      match lookupP m1 c i with
      | some v => some v
      | none => lookupP m2 c i := by
  induction m1 with
  | nil => rfl
  | cons p rest ih =>
    rcases p with ⟨c1, i1, v1⟩
    by_cases h : c1 = c ∧ i1 = i <;> simp [lookupP, h, ih]

theorem lookupP_mapSet_self (m : List (String × String × String)) (c i v : String)
    (h : (lookupP m c i).isSome = true) :
    lookupP (m.map (fun p => if p.1 = c ∧ p.2.1 = i then (c, i, v) else p)) c i =
      some v := by
  induction m with
  | nil => simp [lookupP] at h
  | cons p rest ih =>
    rcases p with ⟨c1, i1, v1⟩
    by_cases hp : c1 = c ∧ i1 = i
    · simp only [List.map_cons, if_pos hp]
      simp [lookupP]
    · simp only [List.map_cons, if_neg hp]
      simp only [lookupP, if_neg hp] at h ⊢
      exact ih h

theorem lookupP_setP_self (m : List (String × String × String)) (c i v : String) :
    lookupP (setP m c i v) c i = some v := by
  unfold setP
  by_cases hs : (lookupP m c i).isSome
  · rw [if_pos hs]
    exact lookupP_mapSet_self m c i v hs
  · rw [if_neg hs]
    rw [lookupP_append]
    have hnone : lookupP m c i = none := by
      rcases he : lookupP m c i with _ | w
      · rfl
      · rw [he] at hs; simp at hs
    rw [hnone]
    simp [lookupP]

theorem macVisible_lower (m : String) : macVisible m (lowerStr m) = true := by
  by_cases h : m = ""
  · subst h
    rfl
  · simp [macVisible, h]

theorem ctr_create_est (cname : String) (info : ContainerInfo) (opts : List String)
    (st : St) (db : Db) (st1 : St) (db1 : Db)
    (h : ctr_create cname info opts st db = (st1, db1, none)) :
    st1.live.containers = st.live.containers ∧
    db1 = db ∧
    (lookupP st1.live.ctrIfaces cname info.iface).isSome = true ∧
    (lookupP st1.live.utilPorts cname info.iface).isSome = true ∧
    macVisible info.macaddress
      ((lookupP st1.live.ctrIfaces cname info.iface).getD "") = true := by
  dsimp only [ctr_create, St.emit, applyCmd] at h
  repeat' split at h
  all_goals (
    rw [Prod.mk.injEq, Prod.mk.injEq] at h
    obtain ⟨h1, h2, -⟩ := h
    subst h1
    subst h2
    dsimp only [St.emit, applyCmd]
    refine ⟨rfl, rfl, ?_, ?_, ?_⟩
    · rw [lookupP_setP_self]
      rfl
    · rw [lookupP_setP_self]
      rfl
    · rw [lookupP_setP_self]
      exact macVisible_lower _)

theorem ctr_run1_est (cname : String) (info : ContainerInfo) (st : St) (db : Db)
    (st1 : St) (db1 : Db)
    (hC : cname ∈ st.live.containers)
    (h : add_iface_to_container cname info st db = (st1, db1, none)) :
    cname ∈ st1.live.containers ∧
    (lookupA db1.bridges info.bridge).isSome = true ∧
    (lookupP st1.live.ctrIfaces cname info.iface).isSome = true ∧
    (lookupP st1.live.utilPorts cname info.iface).isSome = true ∧
    macVisible info.macaddress
      ((lookupP st1.live.ctrIfaces cname info.iface).getD "") = true := by
  dsimp only [add_iface_to_container] at h
  simp only [St.emit, applyCmd] at h
  rw [if_neg (not_not_intro hC)] at h
  rcases hB : lookupA db.bridges info.bridge with _ | bc0
  all_goals rw [hB] at h
  · exact absurd (congrArg (fun t => t.2.2) h) (by simp)
  · dsimp only at h
    split at h
    · exact absurd (congrArg (fun t => t.2.2) h) (by simp)
    · rename_i bc4 opts4 h4
      split at h
      · exact absurd (congrArg (fun t => t.2.2) h) (by simp)
      · rename_i bc6 opts6 h6
        split at h
        · -- container iface present
          rename_i hIf
          split at h
          · -- util port present
            rename_i hPort
            split at h
            · -- mac visible: pure queries
              rename_i hMac
              rw [Prod.mk.injEq, Prod.mk.injEq] at h
              obtain ⟨h1, h2, -⟩ := h
              subst h1
              subst h2
              exact ⟨hC, by rw [setBr]; simp [lookupA_setA_self], hIf, hPort, hMac⟩
            · -- mac drift: ip link set address
              rw [Prod.mk.injEq, Prod.mk.injEq] at h
              obtain ⟨h1, h2, -⟩ := h
              subst h1
              subst h2
              dsimp only [St.emit, applyCmd]
              refine ⟨hC, by rw [setBr]; simp [lookupA_setA_self], ?_, hPort, ?_⟩
              · rw [lookupP_setP_self]
                rfl
              · rw [lookupP_setP_self]
                exact macVisible_lower _
          · -- util port missing: delete + recreate
            obtain ⟨hcont, hdb, hIf1, hPort1, hMac1⟩ := ctr_create_est _ _ _ _ _ _ _ h
            refine ⟨?_, ?_, hIf1, hPort1, hMac1⟩
            · rw [hcont]
              exact hC
            · rw [hdb, setBr]
              simp [lookupA_setA_self]
        · -- container iface missing: recreate
          obtain ⟨hcont, hdb, hIf1, hPort1, hMac1⟩ := ctr_create_est _ _ _ _ _ _ _ h
          refine ⟨?_, ?_, hIf1, hPort1, hMac1⟩
          · rw [hcont]
            exact hC
          · rw [hdb, setBr]
            simp [lookupA_setA_self]

theorem ctr_run2_queries (cname : String) (info : ContainerInfo) (l : LiveState)
    (db : Db)
    (hC : cname ∈ l.containers)
    (hIf : (lookupP l.ctrIfaces cname info.iface).isSome = true)
    (hPort : (lookupP l.utilPorts cname info.iface).isSome = true)
    (hMac : macVisible info.macaddress
      ((lookupP l.ctrIfaces cname info.iface).getD "") = true) :
    ∀ c ∈ (add_iface_to_container cname info {trace := [], live := l} db).1.trace,
      c.isQuery = true := by
  dsimp only [add_iface_to_container]
  simp only [St.emit, applyCmd]
  rw [if_neg (not_not_intro hC)]
  rcases hB : lookupA db.bridges info.bridge with _ | bc0
  · intro c hc
    simp at hc
    subst hc
    rfl
  · dsimp only
    rcases h4 : ctr_family_step cname true (optTruthy info.gateway) info.ipaddress
        (getBr db info.bridge) with e4 | ⟨bc4, opts4⟩
    · intro c hc
      simp at hc
      subst hc
      rfl
    · dsimp only
      rcases h6 : ctr_family_step cname false (optTruthy info.gateway6)
          info.ip6address bc4 with e6 | ⟨bc6, opts6⟩
      · intro c hc
        simp at hc
        subst hc
        rfl
      · dsimp only
        rw [if_pos hIf, if_pos hPort, if_pos hMac]
        intro c hc
        simp at hc
        rcases hc with rfl | rfl | rfl | rfl <;> rfl

theorem C1_container_unit (cname : String) (info : ContainerInfo) (st : St)
    (db : Db) (st1 : St) (db1 : Db)
    (h : add_iface_to_container cname info st db = (st1, db1, none)) :
    ∀ c ∈ (add_iface_to_container cname info {trace := [], live := st1.live}
        db1).1.trace, c.isQuery = true := by
  by_cases hC : cname ∈ st.live.containers
  · obtain ⟨hC1, -, hIf, hPort, hMac⟩ := ctr_run1_est _ _ _ _ _ _ hC h
    exact ctr_run2_queries cname info st1.live db1 hC1 hIf hPort hMac
  · dsimp only [add_iface_to_container] at h
    simp only [St.emit, applyCmd] at h
    rw [if_pos hC] at h
    rw [Prod.mk.injEq, Prod.mk.injEq] at h
    obtain ⟨h1, h2, -⟩ := h
    subst h1
    subst h2
    dsimp only [add_iface_to_container]
    simp only [St.emit, applyCmd]
    rw [if_pos hC]
    intro c hc
    simp at hc
    subst hc
    rfl

theorem getD_setdefaultA {α : Type} (m : List (String × α))
    (k q : String) (d : α) :
    ((lookupA (setdefaultA m k d) q).getD d) = ((lookupA m q).getD d) := by
  by_cases h : q = k
  · subst h
    rw [lookupA_setdefaultA_self]
    rcases lookupA m q with _ | w <;> rfl
  · rw [lookupA_setdefaultA_ne _ _ _ _ h]

theorem parentKeyStep_ovs_est (b parent : String) (isTrunk : Bool)
    (value : Option String) (st : St) (db : Db) :
    (parentKeyStep false b parent isTrunk value st db).1.live = st.live ∧
    (isTrunk = true →
      ((lookupA (getBr (parentKeyStep false b parent isTrunk value st db).2 b).parents
          parent).getD {}).trunk = value ∧
      ((lookupA (getBr (parentKeyStep false b parent isTrunk value st db).2 b).parents
          parent).getD {}).native =
        ((lookupA (getBr db b).parents parent).getD {}).native) ∧
    (isTrunk = false →
      ((lookupA (getBr (parentKeyStep false b parent isTrunk value st db).2 b).parents
          parent).getD {}).native = value ∧
      ((lookupA (getBr (parentKeyStep false b parent isTrunk value st db).2 b).parents
          parent).getD {}).trunk =
        ((lookupA (getBr db b).parents parent).getD {}).trunk) := by
  cases isTrunk
  · refine ⟨?_, fun h => absurd h (by simp), fun _ => ?_⟩
    · dsimp only [parentKeyStep]
      try simp only [Bool.false_eq_true, if_false]
      split
      · rfl
      · split
        · rfl
        · rfl
    · dsimp only [parentKeyStep]
      try simp only [Bool.false_eq_true, if_false]
      split
      · rename_i hcv
        exact ⟨hcv.symm, rfl⟩
      · split
        · rw [getBr_setBr_self]
          dsimp only
          rw [lookupA_setA_self]
          exact ⟨rfl, rfl⟩
        · rw [getBr_setBr_self]
          dsimp only
          rw [lookupA_setA_self]
          exact ⟨rfl, rfl⟩
  · refine ⟨?_, fun _ => ?_, fun h => absurd h (by simp)⟩
    · dsimp only [parentKeyStep]
      try simp only [Bool.false_eq_true, if_false, reduceIte]
      split
      · rfl
      · split
        · rfl
        · rfl
    · dsimp only [parentKeyStep]
      try simp only [Bool.false_eq_true, if_false, reduceIte]
      split
      · rename_i hcv
        exact ⟨hcv.symm, rfl⟩
      · split
        · rw [getBr_setBr_self]
          dsimp only
          rw [lookupA_setA_self]
          exact ⟨rfl, rfl⟩
        · rw [getBr_setBr_self]
          dsimp only
          rw [lookupA_setA_self]
          exact ⟨rfl, rfl⟩

theorem parentKeyStep_run2 (b parent : String) (isTrunk : Bool)
    (value : Option String) (st : St) (db : Db)
    (hc : value = (if isTrunk
      then ((lookupA (getBr db b).parents parent).getD {}).trunk
      else ((lookupA (getBr db b).parents parent).getD {}).native)) :
    parentKeyStep false b parent isTrunk value st db = (st, db) := by
  dsimp only [parentKeyStep]
  rw [if_pos hc]

theorem ovs_attach_est (b : String) (pinfo : ParentInfo) (st : St) (db : Db) :
    ((lookupA (add_iface_to_ovs_bridge b pinfo st db).1.live.portToBr
        (pinfo.iface.getD "None")).getD "") = b ∧
    (add_iface_to_ovs_bridge b pinfo st db).1.live.devLines = st.live.devLines := by
  dsimp only [add_iface_to_ovs_bridge, St.emit, applyCmd]
  split
  · constructor
    · rw [lookupA_setA_self]
      rfl
    · rfl
  · rename_i hnn
    exact ⟨not_not.mp hnn, rfl⟩

theorem ovs_attach_run2 (b : String) (pinfo : ParentInfo) (st : St) (db : Db)
    (hp : (lookupA st.live.portToBr (pinfo.iface.getD "None")).getD "" = b) :
    (add_iface_to_ovs_bridge b pinfo st db).1 =
      st.emit (.portToBr (pinfo.iface.getD "None")) ∧
    ∃ ps, (add_iface_to_ovs_bridge b pinfo st db).2 =
        setBr db b {getBr db b with parents := ps} ∧
      ∀ q, ((lookupA ps q).getD ({} : ParentCache)) =
        ((lookupA (getBr db b).parents q).getD {}) := by
  dsimp only [add_iface_to_ovs_bridge, St.emit, applyCmd]
  rw [if_neg (not_not_intro hp)]
  exact ⟨rfl, setdefaultA (getBr db b).parents (pinfo.iface.getD "None") {}, rfl,
    fun q => getD_setdefaultA _ _ _ _⟩

theorem resolved_est (b parent : String) (pinfo : ParentInfo) (st : St) (db : Db) :
    (add_iface_to_bridge_resolved false b parent pinfo st db).2.2 = none ∧
    (lookupA (add_iface_to_bridge_resolved false b parent pinfo st db).1.live.portToBr
        (pinfo.iface.getD "None")).getD "" = b ∧
    (add_iface_to_bridge_resolved false b parent pinfo st db).1.live.devLines =
      st.live.devLines ∧
    ((lookupA (getBr (add_iface_to_bridge_resolved false b parent pinfo st
        db).2.1 b).parents parent).getD {}).trunk = pinfo.trunk ∧
    ((lookupA (getBr (add_iface_to_bridge_resolved false b parent pinfo st
        db).2.1 b).parents parent).getD {}).native = pinfo.native := by
  dsimp only [add_iface_to_bridge_resolved]
  try simp only [Bool.false_eq_true, if_false]
  set db0 : Db :=
    setBr db b {getBr db b with parents := setdefaultA (getBr db b).parents parent {}}
    with hdb0
  set st0 : St := st.emit (.linkSetUp parent) with hst0
  set r1 := add_iface_to_ovs_bridge b pinfo st0 db0 with hr1
  set r2 := parentKeyStep false b parent true pinfo.trunk r1.1 r1.2 with hr2
  set r3 := parentKeyStep false b parent false pinfo.native r2.1 r2.2 with hr3
  obtain ⟨hA1, hA2⟩ := ovs_attach_est b pinfo st0 db0
  obtain ⟨hT0, hT1, -⟩ := parentKeyStep_ovs_est b parent true pinfo.trunk r1.1 r1.2
  obtain ⟨hN0, -, hN1⟩ := parentKeyStep_ovs_est b parent false pinfo.native r2.1 r2.2
  rw [← hr1] at hA1 hA2
  rw [← hr2] at hT0 hT1
  rw [← hr3] at hN0 hN1
  obtain ⟨hT1a, hT1b⟩ := hT1 rfl
  obtain ⟨hN1a, hN1b⟩ := hN1 rfl
  refine ⟨by trivial, ?_, ?_, ?_, ?_⟩
  · rw [hN0, hT0]
    exact hA1
  · rw [hN0, hT0]
    exact hA2
  · rw [hN1b, hT1a]
  · exact hN1a

theorem resolveUsb_devLines (l1 l2 : LiveState) (raw : String)
    (h : l1.devLines = l2.devLines) : resolveUsb l1 raw = resolveUsb l2 raw := by
  dsimp only [resolveUsb]
  rw [h]

theorem resolved_run2 (b parent : String) (pinfo : ParentInfo) (st : St) (db : Db)
    (hp : (lookupA st.live.portToBr (pinfo.iface.getD "None")).getD "" = b)
    (hct : ((lookupA (getBr db b).parents parent).getD {}).trunk = pinfo.trunk)
    (hcn : ((lookupA (getBr db b).parents parent).getD {}).native = pinfo.native) :
    (add_iface_to_bridge_resolved false b parent pinfo st db).1.trace =
      st.trace ++ [.linkSetUp parent, .portToBr (pinfo.iface.getD "None")] := by
  dsimp only [add_iface_to_bridge_resolved]
  try simp only [Bool.false_eq_true, if_false]
  set db0 : Db :=
    setBr db b {getBr db b with parents := setdefaultA (getBr db b).parents parent {}}
    with hdb0
  set st0 : St := st.emit (.linkSetUp parent) with hst0
  obtain ⟨hA1, ps, hA2, hA3⟩ := ovs_attach_run2 b pinfo st0 db0 hp
  have hcache : ∀ q, ((lookupA (getBr (add_iface_to_ovs_bridge b pinfo st0
      db0).2 b).parents q).getD ({} : ParentCache)) =
      ((lookupA (getBr db b).parents q).getD {}) := by
    intro q
    rw [hA2, getBr_setBr_self]
    dsimp only
    rw [hA3 q, hdb0, getBr_setBr_self]
    dsimp only
    exact getD_setdefaultA _ _ _ _
  have hT := parentKeyStep_run2 b parent true pinfo.trunk
    (add_iface_to_ovs_bridge b pinfo st0 db0).1
    (add_iface_to_ovs_bridge b pinfo st0 db0).2
    (by rw [hcache parent]; exact hct.symm)
  rw [hT]
  have hN := parentKeyStep_run2 b parent false pinfo.native
    (add_iface_to_ovs_bridge b pinfo st0 db0).1
    (add_iface_to_ovs_bridge b pinfo st0 db0).2
    (by rw [hcache parent]; exact hcn.symm)
  rw [hN]
  rw [hA1]
  rw [hst0]
  simp [St.emit]

theorem C1_parent_unit (b : String) (pinfo : ParentInfo) (st : St) (db : Db)
    (st1 : St) (db1 : Db)
    (h : add_iface_to_bridge false b pinfo st db = (st1, db1, none)) :
    ∀ c ∈ (add_iface_to_bridge false b pinfo {trace := [], live := st1.live}
        db1).1.trace, pass2Allowed c = true := by
  rcases hio : pinfo.iface with _ | raw
  · dsimp only [add_iface_to_bridge]
    rw [hio]
    intro c hc
    simp at hc
  · dsimp only [add_iface_to_bridge] at h ⊢
    rw [hio] at h ⊢
    dsimp only [resolve_iface_step] at h ⊢
    by_cases hu : containsSub raw "usb:" = true
    · rw [if_pos hu] at h ⊢
      rcases hres : resolveUsb (st.emit .lsNetDevs).live raw with e | parent
      · rw [hres] at h
        dsimp only at h
        exact absurd (congrArg (fun t => t.2.2) h) (by simp)
      · rw [hres] at h
        dsimp only at h
        obtain ⟨-, hp, hdev, hct, hcn⟩ :=
          resolved_est b parent pinfo (st.emit .lsNetDevs) db
        rw [h] at hp hdev hct hcn
        dsimp only at hp hdev hct hcn
        have hres2 : resolveUsb
            (({trace := [], live := st1.live} : St).emit .lsNetDevs).live raw =
            .ok parent := by
          rw [resolveUsb_devLines _ (st.emit .lsNetDevs).live raw ?_]
          · exact hres
          · simp only [St.emit, applyCmd]
            exact hdev
        rw [hres2]
        dsimp only
        rw [resolved_run2 b parent pinfo (({trace := [], live := st1.live} : St).emit .lsNetDevs) db1 hp hct hcn]
        intro c hc
        simp [St.emit] at hc
        rcases hc with rfl | rfl | rfl <;> rfl
    · rw [if_neg hu] at h ⊢
      dsimp only at h ⊢
      obtain ⟨-, hp, hdev, hct, hcn⟩ := resolved_est b raw pinfo st db
      rw [h] at hp hdev hct hcn
      dsimp only at hp hdev hct hcn
      rw [resolved_run2 b raw pinfo ({trace := [], live := st1.live} : St) db1 hp hct hcn]
      intro c hc
      simp at hc
      rcases hc with rfl | rfl <;> rfl

theorem bridge_apply_ip_success_st (brName : String) (fam4 : Bool)
    (ipR : Option Cidr) (a : IpIntf) (cc : Bool) (hosts : List (String × String))
    (st : St) (bc : BrCache) (db : Db) (st1 : St) (db1 : Db)
    (h : bridge_apply_ip brName fam4 ipR a cc hosts st bc db = (st1, db1, none)) :
    st1 = st.emit (.addrAdd a brName) := by
  dsimp only [bridge_apply_ip] at h
  repeat' split at h
  all_goals first
    | contradiction
    | (rw [Prod.mk.injEq, Prod.mk.injEq] at h
       obtain ⟨h1, -, h3⟩ := h
       first
         | exact Option.noConfusion h3
         | exact h1.symm)

theorem bridge_apply_ip_success_iprange (brName : String) (fam4 : Bool)
    (ipR : Option Cidr) (a : IpIntf) (cc : Bool) (hosts : List (String × String))
    (st : St) (bc : BrCache) (db : Db) (st1 : St) (db1 : Db)
    (h : bridge_apply_ip brName fam4 ipR a cc hosts st bc db = (st1, db1, none)) :
    (getBr db1 brName).iprange = bc.iprange ∧
    (getBr db1 brName).ip6range = bc.ip6range := by
  dsimp only [bridge_apply_ip] at h
  repeat' split at h
  all_goals first
    | contradiction
    | (rw [Prod.mk.injEq, Prod.mk.injEq] at h
       obtain ⟨-, h2, h3⟩ := h
       first
         | exact Option.noConfusion h3
         | (subst h2; rw [getBr_setBr_self]; exact ⟨rfl, rfl⟩))

theorem fam4_run1_est (b : String) (ipR : Option Cidr) (a : IpIntf) (st : St)
    (db : Db) (st1 : St) (db1 : Db)
    (ha : a.v4 = true)
    (hnot6 : a.render ∉ (lookupA st.live.addrs6 b).getD [])
    (h : bridge_family_step b true ipR (some a) st db = (st1, db1, none)) :
    lookupA (getBr db1 b).iprangeHosts b = some a.render ∧
    (getBr db1 b).iprange = ipR ∧
    a.render ∈ (lookupA st1.live.addrs4 b).getD [] ∧
    st1.live.addrs6 = st.live.addrs6 ∧
    (∀ s ∈ (lookupA st1.live.addrs4 b).getD [],
      s ∈ (lookupA st.live.addrs4 b).getD [] ∨ s = a.render) := by
  simp only [bridge_family_step, reduceIte] at h
  split at h
  · -- range changed: host map starts empty
    rename_i hch
    split at h
    · -- cache miss: flush + apply
      have hst := bridge_apply_ip_success_st _ _ _ _ _ _ _ _ _ _ _ h
      have hhosts := bridge_apply_ip_success_hosts4 _ _ _ _ _ _ _ _ _ _ h
      have hir := bridge_apply_ip_success_iprange _ _ _ _ _ _ _ _ _ _ _ h
      subst hst
      refine ⟨?_, ?_, ?_, ?_, ?_⟩
      · rw [hhosts, lookupA_setA_self]
      · rw [hir.1]
      · simp only [St.emit, applyCmd]
        rw [if_pos ha]
        dsimp only
        rw [lookupA_setA_self]
        simp
      · simp only [St.emit, applyCmd]
        rw [if_pos ha]
      · intro s hs
        simp only [St.emit, applyCmd] at hs
        rw [if_pos ha] at hs
        dsimp only at hs
        rw [lookupA_setA_self] at hs
        simp only [Option.getD_some] at hs
        rcases List.mem_append.mp hs with hs1 | hs1
        · rw [lookupA_eraseA_self] at hs1
          simp at hs1
        · right
          simpa using hs1
    · rename_i hlk
      exfalso
      apply hlk
      dsimp only
      simp [lookupA]
  · -- range unchanged
    rename_i hnch
    have hre : ipR = (getBr db b).iprange := not_not.mp hnch
    split at h
    · -- cache miss: flush + apply on the erased map
      have hst := bridge_apply_ip_success_st _ _ _ _ _ _ _ _ _ _ _ h
      have hhosts := bridge_apply_ip_success_hosts4 _ _ _ _ _ _ _ _ _ _ h
      have hir := bridge_apply_ip_success_iprange _ _ _ _ _ _ _ _ _ _ _ h
      subst hst
      refine ⟨?_, ?_, ?_, ?_, ?_⟩
      · rw [hhosts, lookupA_setA_self]
      · rw [hir.1, ← hre]
      · simp only [St.emit, applyCmd]
        rw [if_pos ha]
        dsimp only
        rw [lookupA_setA_self]
        simp
      · simp only [St.emit, applyCmd]
        rw [if_pos ha]
      · intro s hs
        simp only [St.emit, applyCmd] at hs
        rw [if_pos ha] at hs
        dsimp only at hs
        rw [lookupA_setA_self] at hs
        simp only [Option.getD_some] at hs
        rcases List.mem_append.mp hs with hs1 | hs1
        · rw [lookupA_eraseA_self] at hs1
          simp at hs1
        · right
          simpa using hs1
    · -- cache hit
      rename_i hlk
      have hbind : some a.render = lookupA (getBr db b).iprangeHosts b :=
        not_not.mp hlk
      split at h
      · -- live hit: no command beyond the query
        rename_i hmem
        rw [Prod.mk.injEq, Prod.mk.injEq] at h
        obtain ⟨h1, h2, -⟩ := h
        subst h1
        subst h2
        refine ⟨?_, ?_, ?_, ?_, ?_⟩
        · rw [getBr_setBr_self]
          exact hbind.symm
        · rw [getBr_setBr_self, ← hre]
        · simp only [St.emit, applyCmd] at hmem ⊢
          rcases List.mem_append.mp hmem with hm | hm
          · exact hm
          · exact absurd hm hnot6
        · rfl
        · intro s hs
          exact Or.inl hs
      · -- live miss: re-apply on the unchanged map
        have hst := bridge_apply_ip_success_st _ _ _ _ _ _ _ _ _ _ _ h
        have hhosts := bridge_apply_ip_success_hosts4 _ _ _ _ _ _ _ _ _ _ h
        have hir := bridge_apply_ip_success_iprange _ _ _ _ _ _ _ _ _ _ _ h
        subst hst
        refine ⟨?_, ?_, ?_, ?_, ?_⟩
        · rw [hhosts, lookupA_setA_self]
        · rw [hir.1, ← hre]
        · simp only [St.emit, applyCmd]
          rw [if_pos ha]
          dsimp only
          rw [lookupA_setA_self]
          simp
        · simp only [St.emit, applyCmd]
          rw [if_pos ha]
        · intro s hs
          simp only [St.emit, applyCmd] at hs
          rw [if_pos ha] at hs
          dsimp only at hs
          rw [lookupA_setA_self] at hs
          simp only [Option.getD_some] at hs
          rcases List.mem_append.mp hs with hs1 | hs1
          · exact Or.inl hs1
          · right
            simpa using hs1

theorem fam6_run1_est (b : String) (ipR : Option Cidr) (a : IpIntf) (st : St)
    (db : Db) (st1 : St) (db1 : Db)
    (ha : a.v4 = false)
    (hnot4 : a.render ∉ (lookupA st.live.addrs4 b).getD [])
    (h : bridge_family_step b false ipR (some a) st db = (st1, db1, none)) :
    lookupA (getBr db1 b).ip6rangeHosts b = some a.render ∧
    (getBr db1 b).ip6range = ipR ∧
    a.render ∈ (lookupA st1.live.addrs6 b).getD [] ∧
    st1.live.addrs4 = st.live.addrs4 ∧
    (∀ s ∈ (lookupA st1.live.addrs6 b).getD [],
      s ∈ (lookupA st.live.addrs6 b).getD [] ∨ s = a.render) := by
  have hna : ¬(a.v4 = true) := by simp [ha]
  simp only [bridge_family_step, reduceIte, Bool.false_eq_true, if_false] at h
  split at h
  · rename_i hch
    split at h
    · have hst := bridge_apply_ip_success_st _ _ _ _ _ _ _ _ _ _ _ h
      have hhosts := bridge_apply_ip_success_hosts6 _ _ _ _ _ _ _ _ _ _ h
      have hir := bridge_apply_ip_success_iprange _ _ _ _ _ _ _ _ _ _ _ h
      subst hst
      refine ⟨?_, ?_, ?_, ?_, ?_⟩
      · rw [hhosts, lookupA_setA_self]
      · rw [hir.2]
      · simp only [St.emit, applyCmd]
        rw [if_neg hna]
        dsimp only
        rw [lookupA_setA_self]
        simp
      · simp only [St.emit, applyCmd]
        rw [if_neg hna]
      · intro s hs
        simp only [St.emit, applyCmd] at hs
        rw [if_neg hna] at hs
        dsimp only at hs
        rw [lookupA_setA_self] at hs
        simp only [Option.getD_some] at hs
        rcases List.mem_append.mp hs with hs1 | hs1
        · rw [lookupA_eraseA_self] at hs1
          simp at hs1
        · right
          simpa using hs1
    · rename_i hlk
      exfalso
      apply hlk
      dsimp only
      simp [lookupA]
  · rename_i hnch
    have hre : ipR = (getBr db b).ip6range := not_not.mp hnch
    split at h
    · have hst := bridge_apply_ip_success_st _ _ _ _ _ _ _ _ _ _ _ h
      have hhosts := bridge_apply_ip_success_hosts6 _ _ _ _ _ _ _ _ _ _ h
      have hir := bridge_apply_ip_success_iprange _ _ _ _ _ _ _ _ _ _ _ h
      subst hst
      refine ⟨?_, ?_, ?_, ?_, ?_⟩
      · rw [hhosts, lookupA_setA_self]
      · rw [hir.2, ← hre]
      · simp only [St.emit, applyCmd]
        rw [if_neg hna]
        dsimp only
        rw [lookupA_setA_self]
        simp
      · simp only [St.emit, applyCmd]
        rw [if_neg hna]
      · intro s hs
        simp only [St.emit, applyCmd] at hs
        rw [if_neg hna] at hs
        dsimp only at hs
        rw [lookupA_setA_self] at hs
        simp only [Option.getD_some] at hs
        rcases List.mem_append.mp hs with hs1 | hs1
        · rw [lookupA_eraseA_self] at hs1
          simp at hs1
        · right
          simpa using hs1
    · rename_i hlk
      have hbind : some a.render = lookupA (getBr db b).ip6rangeHosts b :=
        not_not.mp hlk
      split at h
      · rename_i hmem
        rw [Prod.mk.injEq, Prod.mk.injEq] at h
        obtain ⟨h1, h2, -⟩ := h
        subst h1
        subst h2
        refine ⟨?_, ?_, ?_, ?_, ?_⟩
        · rw [getBr_setBr_self]
          exact hbind.symm
        · rw [getBr_setBr_self, ← hre]
        · simp only [St.emit, applyCmd] at hmem ⊢
          rcases List.mem_append.mp hmem with hm | hm
          · exact absurd hm hnot4
          · exact hm
        · rfl
        · intro s hs
          exact Or.inl hs
      · have hst := bridge_apply_ip_success_st _ _ _ _ _ _ _ _ _ _ _ h
        have hhosts := bridge_apply_ip_success_hosts6 _ _ _ _ _ _ _ _ _ _ h
        have hir := bridge_apply_ip_success_iprange _ _ _ _ _ _ _ _ _ _ _ h
        subst hst
        refine ⟨?_, ?_, ?_, ?_, ?_⟩
        · rw [hhosts, lookupA_setA_self]
        · rw [hir.2, ← hre]
        · simp only [St.emit, applyCmd]
          rw [if_neg hna]
          dsimp only
          rw [lookupA_setA_self]
          simp
        · simp only [St.emit, applyCmd]
          rw [if_neg hna]
        · intro s hs
          simp only [St.emit, applyCmd] at hs
          rw [if_neg hna] at hs
          dsimp only at hs
          rw [lookupA_setA_self] at hs
          simp only [Option.getD_some] at hs
          rcases List.mem_append.mp hs with hs1 | hs1
          · exact Or.inl hs1
          · right
            simpa using hs1

theorem fam4_none_run1 (b : String) (ipR : Option Cidr) (st : St) (db : Db)
    (st1 : St) (db1 : Db)
    (h : bridge_family_step b true ipR none st db = (st1, db1, none)) :
    st1.live.addrs6 = st.live.addrs6 ∧
    (∀ s ∈ (lookupA st1.live.addrs4 b).getD [],
      s ∈ (lookupA st.live.addrs4 b).getD []) := by
  simp only [bridge_family_step, reduceIte] at h
  split at h
  all_goals (
    rw [Prod.mk.injEq, Prod.mk.injEq] at h
    obtain ⟨h1, -, -⟩ := h
    subst h1
    constructor
    · rfl
    · intro s hs
      simp only [St.emit, applyCmd] at hs
      rw [lookupA_eraseA_self] at hs
      simp at hs)

theorem fam6_none_run1 (b : String) (ipR : Option Cidr) (st : St) (db : Db)
    (st1 : St) (db1 : Db)
    (h : bridge_family_step b false ipR none st db = (st1, db1, none)) :
    st1.live.addrs4 = st.live.addrs4 ∧
    (∀ s ∈ (lookupA st1.live.addrs6 b).getD [],
      s ∈ (lookupA st.live.addrs6 b).getD []) := by
  simp only [bridge_family_step, reduceIte, Bool.false_eq_true, if_false] at h
  split at h
  all_goals (
    rw [Prod.mk.injEq, Prod.mk.injEq] at h
    obtain ⟨h1, -, -⟩ := h
    subst h1
    constructor
    · rfl
    · intro s hs
      simp only [St.emit, applyCmd] at hs
      rw [lookupA_eraseA_self] at hs
      simp at hs)

theorem fam4_run2_none (b : String) (ipR : Option Cidr) (st : St) (db : Db) :
    ∃ db2, bridge_family_step b true ipR none st db =
      (st.emit (.addrFlush true b), db2, none) := by
  dsimp only [bridge_family_step]
  simp only [reduceIte]
  split
  · exact ⟨_, rfl⟩
  · exact ⟨_, rfl⟩

theorem fam6_run2_none (b : String) (ipR : Option Cidr) (st : St) (db : Db) :
    ∃ db2, bridge_family_step b false ipR none st db =
      (st.emit (.addrFlush false b), db2, none) := by
  dsimp only [bridge_family_step]
  simp only [reduceIte, Bool.false_eq_true, if_false]
  split
  · exact ⟨_, rfl⟩
  · exact ⟨_, rfl⟩

theorem fam4_run2_some (b : String) (ipR : Option Cidr) (a : IpIntf) (st : St)
    (db : Db)
    (hbind : lookupA (getBr db b).iprangeHosts b = some a.render)
    (hrange : (getBr db b).iprange = ipR)
    (hmem4 : a.render ∈ (lookupA st.live.addrs4 b).getD []) :
    ∃ db2, bridge_family_step b true ipR (some a) st db =
      (st.emit (.queryAddrs b), db2, none) := by
  dsimp only [bridge_family_step]
  simp only [reduceIte]
  rw [if_neg (not_not_intro hrange.symm)]
  rw [if_neg (not_not_intro hbind.symm)]
  rw [if_pos (show a.render ∈ getInterfaceIp (st.emit (.queryAddrs b)).live b from
    List.mem_append_left _ hmem4)]
  exact ⟨_, rfl⟩

theorem fam6_run2_some (b : String) (ipR : Option Cidr) (a : IpIntf) (st : St)
    (db : Db)
    (hbind : lookupA (getBr db b).ip6rangeHosts b = some a.render)
    (hrange : (getBr db b).ip6range = ipR)
    (hmem6 : a.render ∈ (lookupA st.live.addrs6 b).getD []) :
    ∃ db2, bridge_family_step b false ipR (some a) st db =
      (st.emit (.queryAddrs b), db2, none) := by
  dsimp only [bridge_family_step]
  simp only [reduceIte, Bool.false_eq_true, if_false]
  rw [if_neg (not_not_intro hrange.symm)]
  rw [if_neg (not_not_intro hbind.symm)]
  rw [if_pos (show a.render ∈ getInterfaceIp (st.emit (.queryAddrs b)).live b from
    List.mem_append_right _ hmem6)]
  exact ⟨_, rfl⟩

theorem applyCmd_ovsAddBr_addrs (l : LiveState) (br : String) :
    (applyCmd l (.ovsAddBr br)).addrs4 = l.addrs4 ∧
    (applyCmd l (.ovsAddBr br)).addrs6 = l.addrs6 := by
  dsimp only [applyCmd]
  split <;> exact ⟨rfl, rfl⟩

theorem C1_bridge_unit (b : String) (info : BridgeInfo) (live0 : LiveState)
    (db0 : Db) (st1 : St) (db1 : Db)
    (hpar : info.parents = [])
    (hfam4 : ∀ a, info.ipaddress = some a → a.v4 = true)
    (hfam6 : ∀ a, info.ip6address = some a → a.v4 = false)
    (hx4 : ∀ a, info.ipaddress = some a →
      a.render ∉ (lookupA live0.addrs6 b).getD [])
    (hx6 : ∀ a, info.ip6address = some a →
      a.render ∉ (lookupA live0.addrs4 b).getD [])
    (hd : ∀ a4 a6, info.ipaddress = some a4 → info.ip6address = some a6 →
      a4.render ≠ a6.render)
    (h : init_bridge false b info {trace := [], live := live0} db0 = (st1, db1, none)) :
    ∀ c ∈ (init_bridge false b info {trace := [], live := st1.live} db1).1.trace,
      pass2Allowed c = true := by
  dsimp only [init_bridge] at h
  try simp only [Bool.false_eq_true, if_false] at h
  rw [hpar] at h
  split at h
  · rw [Prod.mk.injEq, Prod.mk.injEq] at h
    exact absurd h.2.2 (by simp)
  · rename_i stA dbA heq4
    split at h
    · rw [Prod.mk.injEq, Prod.mk.injEq] at h
      exact absurd h.2.2 (by simp)
    · rename_i stB dbB heq6
      dsimp only [parentsFold] at h
      rw [Prod.mk.injEq, Prod.mk.injEq] at h
      obtain ⟨hB1, hB2, -⟩ := h
      subst hB1
      subst hB2
      have hov0 := applyCmd_ovsAddBr_addrs live0 b
      have hfacts4 :
          (∀ a4, info.ipaddress = some a4 →
            lookupA (getBr dbA b).iprangeHosts b = some a4.render ∧
            (getBr dbA b).iprange = info.iprange ∧
            a4.render ∈ (lookupA stA.live.addrs4 b).getD []) ∧
          stA.live.addrs6 = live0.addrs6 ∧
          (∀ s ∈ (lookupA stA.live.addrs4 b).getD [],
            s ∈ (lookupA live0.addrs4 b).getD [] ∨
              ∃ a4, info.ipaddress = some a4 ∧ s = a4.render) := by
        rcases hi4 : info.ipaddress with _ | a4
        · rw [hi4] at heq4
          obtain ⟨hn1, hn2⟩ := fam4_none_run1 _ _ _ _ _ _ heq4
          simp only [St.emit] at hn1 hn2
          refine ⟨fun a4 ha4 => Option.noConfusion ha4, ?_, ?_⟩
          · rw [hn1]
            exact hov0.2
          · intro s hs
            left
            have hthis := hn2 s hs
            rw [show (applyCmd (applyCmd live0 (.ovsAddBr b))
              (.linkSetUp b)).addrs4 = live0.addrs4 from hov0.1] at hthis
            exact hthis
        · rw [hi4] at heq4
          obtain ⟨he1, he2, he3, he4, he5⟩ := fam4_run1_est _ _ _ _ _ _ _
            (hfam4 a4 hi4)
            (by
              simp only [St.emit]
              rw [show (applyCmd (applyCmd live0 (.ovsAddBr b))
                (.linkSetUp b)).addrs6 = live0.addrs6 from hov0.2]
              exact hx4 a4 hi4)
            heq4
          simp only [St.emit] at he4 he5
          refine ⟨fun a4x ha4x => ?_, ?_, ?_⟩
          · injection ha4x with ha4x
            subst ha4x
            exact ⟨he1, he2, he3⟩
          · rw [he4]
            exact hov0.2
          · intro s hs
            rcases he5 s hs with hs1 | hs1
            · left
              rw [show (applyCmd (applyCmd live0 (.ovsAddBr b))
                (.linkSetUp b)).addrs4 = live0.addrs4 from hov0.1] at hs1
              exact hs1
            · right
              exact ⟨a4, rfl, hs1⟩
      obtain ⟨hS4, hA6eq, hA4sub⟩ := hfacts4
      have hfacts6 :
          (∀ a6, info.ip6address = some a6 →
            lookupA (getBr dbB b).ip6rangeHosts b = some a6.render ∧
            (getBr dbB b).ip6range = info.ip6range ∧
            a6.render ∈ (lookupA stB.live.addrs6 b).getD []) ∧
          stB.live.addrs4 = stA.live.addrs4 := by
        rcases hi6 : info.ip6address with _ | a6
        · rw [hi6] at heq6
          obtain ⟨hn1, -⟩ := fam6_none_run1 _ _ _ _ _ _ heq6
          exact ⟨fun a6 ha6 => Option.noConfusion ha6, hn1⟩
        · rw [hi6] at heq6
          have hnot4 : a6.render ∉ (lookupA stA.live.addrs4 b).getD [] := by
            intro hmem
            rcases hA4sub a6.render hmem with hs | ⟨a4, ha4, hs⟩
            · exact hx6 a6 hi6 hs
            · exact hd a4 a6 ha4 hi6 hs.symm
          obtain ⟨he1, he2, he3, he4, -⟩ := fam6_run1_est _ _ _ _ _ _ _
            (hfam6 a6 hi6) hnot4 heq6
          refine ⟨fun a6x ha6x => ?_, he4⟩
          injection ha6x with ha6x
          subst ha6x
          exact ⟨he1, he2, he3⟩
      obtain ⟨hS6, hA4eq⟩ := hfacts6
      obtain ⟨hk6r, hk6h⟩ := bridge_family_step_f6_keeps_eq _ _ _ _ _ _ _ _ heq6
      dsimp only [init_bridge]
      try simp only [Bool.false_eq_true, if_false]
      rw [hpar]
      set db1p : Db := {dbB with bridges := setdefaultA dbB.bridges b {}} with hdb1p
      set stPre2 : St := (({trace := [], live := stB.live} : St).emit
        (.ovsAddBr b)).emit (.linkSetUp b) with hstPre2
      have hgd : getBr db1p b = getBr dbB b := getBr_setdefault_self dbB b
      have hov1 := applyCmd_ovsAddBr_addrs stB.live b
      have hpre24 : stPre2.live.addrs4 = stB.live.addrs4 := hov1.1
      have hpre26 : stPre2.live.addrs6 = stB.live.addrs6 := hov1.2
      have hstep4 : ∃ cmd4 db2, bridge_family_step b true info.iprange
          info.ipaddress stPre2 db1p = (stPre2.emit cmd4, db2, none) ∧
          pass2Allowed cmd4 = true ∧
          (stPre2.emit cmd4).live.addrs6 = stB.live.addrs6 := by
        rcases hi4 : info.ipaddress with _ | a4
        · obtain ⟨db2, hx⟩ := fam4_run2_none b info.iprange stPre2 db1p
          refine ⟨.addrFlush true b, db2, hx, rfl, ?_⟩
          simp only [St.emit, applyCmd]
          exact hpre26
        · obtain ⟨hb1, hb2, hb3⟩ := hS4 a4 hi4
          obtain ⟨db2, hx⟩ := fam4_run2_some b info.iprange a4 stPre2 db1p
            (by rw [hgd, hk6h]; exact hb1)
            (by rw [hgd, hk6r]; exact hb2)
            (by rw [hpre24, hA4eq]; exact hb3)
          refine ⟨.queryAddrs b, db2, hx, rfl, ?_⟩
          simp only [St.emit, applyCmd]
          exact hpre26
      obtain ⟨cmd4, db2, hx4r, hall4, haddr6⟩ := hstep4
      rw [hx4r]
      dsimp only
      obtain ⟨hk4r2, hk4h2⟩ := bridge_family_step_f4_keeps_eq _ _ _ _ _ _ _ _ hx4r
      have hstep6 : ∃ cmd6 db3, bridge_family_step b false info.ip6range
          info.ip6address (stPre2.emit cmd4) db2 =
          ((stPre2.emit cmd4).emit cmd6, db3, none) ∧
          pass2Allowed cmd6 = true := by
        rcases hi6 : info.ip6address with _ | a6
        · obtain ⟨db3, hx⟩ := fam6_run2_none b info.ip6range (stPre2.emit cmd4) db2
          exact ⟨.addrFlush false b, db3, hx, rfl⟩
        · obtain ⟨hb1, hb2, hb3⟩ := hS6 a6 hi6
          obtain ⟨db3, hx⟩ := fam6_run2_some b info.ip6range a6 (stPre2.emit cmd4) db2
            (by rw [hk4h2, hgd]; exact hb1)
            (by rw [hk4r2, hgd]; exact hb2)
            (by rw [haddr6]; exact hb3)
          exact ⟨.queryAddrs b, db3, hx, rfl⟩
      obtain ⟨cmd6, db3, hx6r, hall6⟩ := hstep6
      rw [hx6r]
      dsimp only [parentsFold]
      intro c hc
      simp [St.emit, hstPre2] at hc
      rcases hc with rfl | rfl | rfl | rfl
      · rfl
      · rfl
      · exact hall4
      · exact hall6

theorem pass_body_single_bridge (b : String) (info : BridgeInfo) (st : St)
    (db : Db) :
    pass_body false {bridge := [(b, info)]} st db = init_bridge false b info st db := by
  dsimp only [pass_body, bridgesFold, containersFold, vethsFold, vethsFoldSt]
  rcases hr : init_bridge false b info st db with ⟨s1, d1, _ | e⟩
  · rfl
  · rfl

/-- C1 (corrected): a second reconciliation pass over the unchanged document
is NOT free of control-plane mutations — it unconditionally re-issues
`ip link set ... up` and, for each address family a bridge leaves
unconfigured, `ip addr flush` (see the counterexample).  What does hold, and
is proven here for single-unit documents in OVS mode, is that those are the
ONLY mutations: (1) a pass over one bridge document (with no parent records
and family-consistent addresses) re-issues only `pass2Allowed` commands
after a successful first pass; (2) re-reconciling a parent record issues
only allowed commands; (3) re-reconciling a container interface issues pure
queries; (4) re-reconciling a VLAN translation issues only allowed
commands.  The cache and live-state checks recognise the applied state in
every case. -/
theorem C1_second_pass_only_allowed :
    (∀ (b : String) (info : BridgeInfo) (live0 : LiveState) (db0 : Db)
      (st1 : St) (db1 : Db),
      info.parents = [] →
      (∀ a, info.ipaddress = some a → a.v4 = true) →
      (∀ a, info.ip6address = some a → a.v4 = false) →
      (∀ a, info.ipaddress = some a →
        a.render ∉ (lookupA live0.addrs6 b).getD []) →
      (∀ a, info.ip6address = some a →
        a.render ∉ (lookupA live0.addrs4 b).getD []) →
      (∀ a4 a6, info.ipaddress = some a4 → info.ip6address = some a6 →
        a4.render ≠ a6.render) →
      pass_body false {bridge := [(b, info)]} {trace := [], live := live0} db0 =
        (st1, db1, none) →
      ∀ c ∈ (pass_body false {bridge := [(b, info)]}
          {trace := [], live := st1.live} db1).1.trace, pass2Allowed c = true) ∧
    (∀ (b : String) (pinfo : ParentInfo) (st : St) (db : Db) (st1 : St) (db1 : Db),
      add_iface_to_bridge false b pinfo st db = (st1, db1, none) →
      ∀ c ∈ (add_iface_to_bridge false b pinfo {trace := [], live := st1.live}
          db1).1.trace, pass2Allowed c = true) ∧
    (∀ (cname : String) (info : ContainerInfo) (st : St) (db : Db) (st1 : St)
      (db1 : Db),
      add_iface_to_container cname info st db = (st1, db1, none) →
      ∀ c ∈ (add_iface_to_container cname info {trace := [], live := st1.live}
          db1).1.trace, c.isQuery = true) ∧
    (∀ (onBridge vmap : String) (st : St) (st1 : St),
      create_veth_pair onBridge vmap st = (st1, none) →
      ∀ c ∈ (create_veth_pair onBridge vmap
          {trace := [], live := st1.live}).1.trace, pass2Allowed c = true) := by
  refine ⟨?_, C1_parent_unit, C1_container_unit, C1_veth_unit⟩
  intro b info live0 db0 st1 db1 hpar hfam4 hfam6 hx4 hx6 hd h
  rw [pass_body_single_bridge] at h
  rw [pass_body_single_bridge]
  exact C1_bridge_unit b info live0 db0 st1 db1 hpar hfam4 hfam6 hx4 hx6 hd h

/-- C1 counterexample: a document with one bridge and no configured
addresses reconciles successfully, yet the second pass still issues
mutating control-plane calls (the per-family `ip addr flush` and the
`ip link set up`), refuting the claim that a settled second pass issues
nothing beyond idempotent existence checks. -/
theorem C1_counterexample :
    (pass_body false {bridge := [("br0", {})]} {trace := [], live := {}} {}).2.2 = none ∧
    ((pass_body false {bridge := [("br0", {})]}
      {trace := [],
       live := (pass_body false {bridge := [("br0", {})]} {trace := [], live := {}} {}).1.live}
      (pass_body false {bridge := [("br0", {})]} {trace := [], live := {}} {}).2.1).1.trace.any
        NetCmd.mutating) = true := by
  exact ⟨rfl, rfl⟩

/-- Witness for C1: the single-bridge document br0 and the veth mapping
100:200, both reconciled twice from scratch. -/
theorem C1_second_pass_only_allowed_witness :
    (∀ c ∈ (pass_body false {bridge := [("br0", {})]}
        {trace := [],
         live := (pass_body false {bridge := [("br0", {})]}
           {trace := [], live := {}} {}).1.live}
        (pass_body false {bridge := [("br0", {})]}
          {trace := [], live := {}} {}).2.1).1.trace, pass2Allowed c = true) ∧
    (∀ c ∈ (create_veth_pair "brX" "100:200"
        {trace := [],
         live := (create_veth_pair "brX" "100:200" {}).1.live}).1.trace,
      pass2Allowed c = true) :=
  ⟨C1_second_pass_only_allowed.1 "br0" {} {} {}
      (pass_body false {bridge := [("br0", {})]} {trace := [], live := {}} {}).1
      (pass_body false {bridge := [("br0", {})]} {trace := [], live := {}} {}).2.1
      rfl
      (fun a ha => Option.noConfusion ha)
      (fun a ha => Option.noConfusion ha)
      (fun a ha => Option.noConfusion ha)
      (fun a ha => Option.noConfusion ha)
      (fun a4 a6 h1 _ => Option.noConfusion h1)
      (by rfl),
   C1_second_pass_only_allowed.2.2.2 "brX" "100:200" {}
      (create_veth_pair "brX" "100:200" {}).1
      (by rfl)⟩
